import Mathlib

/-!
# Verification of the gdx-config-validator specification

Shallow embedding of the parts of `gdx-config-validator` (Python) that the
frozen claims C1..C10 are about, together with theorems settling each claim.

Embedded source files:
* `src/gdx_config_validator/results.py` — `ValidationResult`,
  `ValidationResultBuilder` (claims C1, C5);
* `src/gdx_config_validator/core.py` — `ValidationContext`,
  `ValidationRuleEngine.apply_rules` (claims C4, C10);
* `src/gdx_config_validator/schemas/operations.py` — `ParameterSpec`,
  `OperationSpec`, `OperationRegistry` and its fixed catalog (claims C6, C7, C9);
* `src/gdx_config_validator/validators.py` — the suspicious-SQL-function scan of
  `_validate_sql_security` (claim C2), `_validate_column_consistency_rule`
  (claim C3) and `SQLExpressionColumnValidator._extract_alias_from_expression`
  (claim C8).

Modelling conventions:
* Python dynamic values are modelled by the inductive type `PyVal`
  (str / int / float / bool / None / list / dict). Python `float` is modelled
  as a rational number: the finite floats embed into `ℚ` and the claims under
  study never involve NaN or infinities.
* Python dicts are modelled as insertion-ordered association lists with
  first-occurrence lookup, which matches dict semantics whenever keys are
  unique (Python dicts cannot hold duplicate keys).
* A diagnostic dict is `Diag := List (String × PyVal)`.
* Exceptions are modelled with `Except String`, the `String` being `str(e)`.
-/

set_option maxRecDepth 4000

namespace GdxSpec

/-- Model of a Python runtime value (the subset the validator manipulates). -/
inductive PyVal where
  | str (s : String)
  | int (n : Int)
  | float (q : ℚ)
  | bool (b : Bool)
  | none
  | list (xs : List PyVal)
  | dict (entries : List (String × PyVal))
deriving Repr

/-- A diagnostic dict, e.g. `{"type": ..., "message": ..., "severity": ...}`. -/
abbrev Diag := List (String × PyVal)

/-- Python `d.get(k)`: first-occurrence lookup in an (insertion-ordered) dict. -/
def dget (d : Diag) (k : String) : Option PyVal :=
  match d with
  | [] => Option.none
  | (k', v) :: rest => if k' = k then some v else dget rest k

/-- Python `d.get(k, default)`. -/
def dgetD (d : Diag) (k : String) (v₀ : PyVal) : PyVal :=
  (dget d k).getD v₀

/-- Python `v == s` for a string literal `s` (non-strings never equal a str). -/
def pyEqStr (v : PyVal) (s : String) : Bool :=
  match v with
  | .str t => t == s
  | _ => false

/-- `isinstance(v, int)` — Python `bool` is a subclass of `int`. -/
def isInstInt (v : PyVal) : Bool :=
  match v with
  | .int _ => true
  | .bool _ => true
  | _ => false

/-- `isinstance(v, (int, float))` — numeric check (includes `bool`). -/
def isNum (v : PyVal) : Bool :=
  match v with
  | .int _ => true
  | .float _ => true
  | .bool _ => true
  | _ => false

/-- Python `v is None`. -/
def isNoneV (v : PyVal) : Bool :=
  match v with
  | .none => true
  | _ => false

/-- `isinstance(v, bool)` (exact `bool` check). -/
def isBool (v : PyVal) : Bool :=
  match v with
  | .bool _ => true
  | _ => false

/-- `isinstance(v, str)`. -/
def isStr (v : PyVal) : Bool :=
  match v with
  | .str _ => true
  | _ => false

/-- `isinstance(v, (str, int, float))` (includes `bool` via `int`). -/
def isStrOrNum (v : PyVal) : Bool :=
  isStr v || isNum v

/-- Numeric value of a Python number (`True`/`False` count as `1`/`0`). -/
def toRat (v : PyVal) : ℚ :=
  match v with
  | .int n => (n : ℚ)
  | .float q => q
  | .bool b => if b then 1 else 0
  | _ => 0

/-- `type(v).__name__`. -/
def pyTypeName (v : PyVal) : String :=
  match v with
  | .str _ => "str"
  | .int _ => "int"
  | .float _ => "float"
  | .bool _ => "bool"
  | .none => "NoneType"
  | .list _ => "list"
  | .dict _ => "dict"

/-- Python `str(v)` (only the cases the claims evaluate matter; floats use the
    decimal expansion of the underlying rational). -/
def pyStr (v : PyVal) : String :=
  match v with
  | .str s => s
  | .int n => toString n
  | .float q => toString q
  | .bool b => if b then "True" else "False"
  | .none => "None"
  | .list _ => "<list>"
  | .dict _ => "<dict>"

/-- Does a diagnostic list contain an entry with the given `"type"` field? -/
def hasDiagType (l : List Diag) (t : String) : Bool :=
  l.any fun d => pyEqStr (dgetD d "type" .none) t

/-- Does a diagnostic list contain an entry with the given `"type"` and
    `"severity"` fields? -/
def hasDiagTypeSev (l : List Diag) (t sev : String) : Bool :=
  l.any fun d => pyEqStr (dgetD d "type" .none) t && pyEqStr (dgetD d "severity" .none) sev

/-! ## results.py — `ValidationResult` and `ValidationResultBuilder` -/
/-- `ValidationSeverity` enum values. -/
def sevCritical : String := "critical"

def sevError : String := "error"

def sevWarning : String := "warning"

def sevInfo : String := "info"

/-- `ValidationResult` dataclass (results.py lines 20-31). -/
structure VResult where
  is_valid : Bool
  errors : List Diag := []
  warnings : List Diag := []
  info : List Diag := []
  performance_metrics : Option Diag := Option.none
  validation_metadata : Option Diag := Option.none
deriving Repr

/-- Python `a or b` for the optional-dict fields of `merge` (`None` and the
    empty dict are falsy). -/
def pyOrDict (a b : Option Diag) : Option Diag :=
  match a with
  | some d => if d.isEmpty then b else some d
  | Option.none => b

/-- `ValidationResult.merge` (results.py lines 158-167). -/
def VResult.merge (a b : VResult) : VResult :=
  { is_valid := a.is_valid && b.is_valid
    errors := a.errors ++ b.errors
    warnings := a.warnings ++ b.warnings
    info := a.info ++ b.info
    performance_metrics := pyOrDict a.performance_metrics b.performance_metrics
    validation_metadata := pyOrDict a.validation_metadata b.validation_metadata }

/-- `ValidationResultBuilder` state (results.py lines 204-212). -/
structure Builder where
  errors : List Diag := []
  warnings : List Diag := []
  info : List Diag := []
  performance_metrics : Option Diag := Option.none
  validation_metadata : Option Diag := Option.none

/-- Build the `{...}` dict of `add_error`/`add_warning`/`add_info` and strip
    `None`-valued entries (`{k: v for k, v in d.items() if v is not None}`). -/
def mkMessage (ty msg : String) (sev : String) (path mapping : Option String)
    (extra : List (String × PyVal)) : Diag :=
  ([("type", PyVal.str ty), ("message", PyVal.str msg), ("severity", PyVal.str sev),
    ("path", (path.map PyVal.str).getD .none),
    ("mapping", (mapping.map PyVal.str).getD .none)] ++ extra).filter
    fun kv => match kv.2 with
      | .none => false
      | _ => true

/-- `ValidationResultBuilder.add_error` (results.py lines 214-235); `severity`
    defaults to `"error"` at call sites that omit it. -/
def Builder.add_error (b : Builder) (ty msg : String) (path mapping : Option String)
    (severity : String) (extra : List (String × PyVal)) : Builder :=
  { b with errors := b.errors ++ [mkMessage ty msg severity path mapping extra] }

/-- `ValidationResultBuilder.add_warning` (results.py lines 237-252). -/
def Builder.add_warning (b : Builder) (ty msg : String) (path mapping : Option String)
    (extra : List (String × PyVal)) : Builder :=
  { b with warnings := b.warnings ++ [mkMessage ty msg sevWarning path mapping extra] }

/-- `ValidationResultBuilder.add_info` (results.py lines 254-269). -/
def Builder.add_info (b : Builder) (ty msg : String) (path mapping : Option String)
    (extra : List (String × PyVal)) : Builder :=
  { b with info := b.info ++ [mkMessage ty msg sevInfo path mapping extra] }

/-- `ValidationResultBuilder.build` (results.py lines 281-290):
    `is_valid = (len(self.errors) == 0)`. -/
def Builder.build (b : Builder) : VResult :=
  { is_valid := b.errors.isEmpty
    errors := b.errors
    warnings := b.warnings
    info := b.info
    performance_metrics := b.performance_metrics
    validation_metadata := b.validation_metadata }

/-- Number of diagnostics in a list whose `"severity"` is ERROR or CRITICAL. -/
def countErrCrit (l : List Diag) : Nat :=
  l.countP fun d =>
    pyEqStr (dgetD d "severity" .none) sevError ||
    pyEqStr (dgetD d "severity" .none) sevCritical

/-- Every diagnostic in the list carries ERROR or CRITICAL severity. -/
def allErrCrit (l : List Diag) : Bool :=
  l.all fun d =>
    pyEqStr (dgetD d "severity" .none) sevError ||
    pyEqStr (dgetD d "severity" .none) sevCritical

/-! ## core.py — `ValidationContext` and `ValidationRuleEngine` -/
/-- Generic Python-dict association list lookup (first occurrence). -/
def dictGet? {α : Type} (l : List (String × α)) (k : String) : Option α :=
  match l with
  | [] => Option.none
  | (k', v) :: rest => if k' = k then some v else dictGet? rest k

/-- Python dict assignment `d[k] = v`: replace in place if the key exists
    (insertion order of an existing key is kept), else append. -/
def dictSet {α : Type} (l : List (String × α)) (k : String) (v : α) :
    List (String × α) :=
  match l with
  | [] => [(k, v)]
  | (k', v') :: rest => if k' = k then (k, v) :: rest else (k', v') :: dictSet rest k v

/-- `ValidationContext` (core.py lines 149-162). -/
structure VContext where
  base_path : String := ""
  mapping_name : String := ""
  transformation_index : Int := -1
  operation_index : Int := -1

/-- `ValidationContext.get_path` (core.py lines 164-180). -/
def VContext.get_path (c : VContext) (additional : String) : String :=
  let parts :=
    (if c.base_path ≠ "" then [c.base_path] else []) ++
    (if c.transformation_index ≥ 0 then
      ["column_transformations[" ++ toString c.transformation_index ++ "]"] else []) ++
    (if c.operation_index ≥ 0 then
      ["transformations[" ++ toString c.operation_index ++ "]"] else []) ++
    (if additional ≠ "" then [additional] else [])
  String.intercalate "." parts

/-- Metadata stored by `ValidationRuleEngine.register_rule` (core.py lines
    267-282); `severity` holds the enum's `.value` string. -/
structure RuleMeta where
  description : String := ""
  severity : String := sevError
  categories : List String := []
  function : String := ""

/-- The shapes a rule function may return (core.py lines 303-326 inspect the
    returned object's runtime type); `other` covers `None` and anything else,
    which `apply_rules` ignores. -/
inductive RuleReturn where
  | vres (r : VResult)
  | lst (l : List Diag)
  | dct (d : Diag)
  | other

/-- A rule function; a raised exception is modelled as `Except.error (str e)`. -/
abbrev RuleFn := PyVal → VContext → Except String RuleReturn

/-- `ValidationRuleEngine` state: `self.rules` and `self.rule_metadata`, both
    insertion-ordered dicts keyed by rule name. -/
structure RuleEngine where
  rules : List (String × RuleFn)
  rule_metadata : List (String × RuleMeta)

/-- `ValidationRuleEngine.register_rule` (core.py lines 267-282). -/
def RuleEngine.register_rule (eng : RuleEngine) (name : String) (f : RuleFn)
    (description : String) (severity : String) (categories : List String)
    (function : String) : RuleEngine :=
  { rules := dictSet eng.rules name f
    rule_metadata := dictSet eng.rule_metadata name
      { description := description, severity := severity,
        categories := categories, function := function } }

/-- Bucketing of one diagnostic dict by its own severity, falling back to the
    rule's registered severity (core.py lines 310-326). -/
def bucketDiag (meta : RuleMeta) (b : Builder) (item : Diag) : Builder :=
  let sev := dgetD item "severity" (.str meta.severity)
  if pyEqStr sev sevError then { b with errors := b.errors ++ [item] }
  else if pyEqStr sev sevWarning then { b with warnings := b.warnings ++ [item] }
  else { b with info := b.info ++ [item] }

/-- One iteration of the `apply_rules` loop body for a rule that passed the
    category filter (core.py lines 299-337). -/
def ruleStep (data : PyVal) (ctx : VContext) (name : String) (f : RuleFn)
    (meta : RuleMeta) (b : Builder) : Builder :=
  match f data ctx with
  | .ok (.vres r) =>
      { b with errors := b.errors ++ r.errors, warnings := b.warnings ++ r.warnings,
               info := b.info ++ r.info }
  | .ok (.lst l) => l.foldl (bucketDiag meta) b
  | .ok (.dct d) => bucketDiag meta b d
  | .ok .other => b
  | .error e =>
      b.add_error "rule_execution_error"
        ("Validation rule \"" ++ name ++ "\" failed: " ++ e)
        (some (ctx.get_path "")) (some ctx.mapping_name) sevError
        [("rule", .str name), ("exception", .str e)]

/-- The rule metadata lookup `self.rule_metadata[rule_name]` cannot fail for
    engines built through `register_rule`; the default is never used there. -/
def defaultRuleMeta : RuleMeta := {}

/-- The `apply_rules` loop over the registered rules (core.py lines 290-337);
    `cats = []` models the default `rule_categories=None` (both are falsy). -/
def applyRulesAux (metas : List (String × RuleMeta)) (data : PyVal) (ctx : VContext)
    (cats : List String) : List (String × RuleFn) → Builder → Builder
  | [], b => b
  | (name, f) :: rest, b =>
      let meta := (dictGet? metas name).getD defaultRuleMeta
      let b' :=
        if !cats.isEmpty && !(cats.any fun cat => meta.categories.contains cat) then b
        else ruleStep data ctx name f meta b
      applyRulesAux metas data ctx cats rest b'

/-- `ValidationRuleEngine.apply_rules` (core.py lines 284-339). -/
def RuleEngine.apply_rules (eng : RuleEngine) (data : PyVal) (ctx : VContext)
    (cats : List String) : VResult :=
  (applyRulesAux eng.rule_metadata data ctx cats eng.rules {}).build

/-- The `rule_execution_error` diagnostic appended when a rule raises
    (core.py lines 328-337). -/
def ruleExecErrorDiag (name e : String) (ctx : VContext) : Diag :=
  mkMessage "rule_execution_error"
    ("Validation rule \"" ++ name ++ "\" failed: " ++ e) sevError
    (some (ctx.get_path "")) (some ctx.mapping_name)
    [("rule", .str name), ("exception", .str e)]

/-- Sum of the diagnostic counts produced by each rule of an engine on the
    given data/context (each rule returning a list of diagnostic dicts). -/
def totalRuleDiagCount (rules : List (String × RuleFn)) (data : PyVal)
    (ctx : VContext) : Nat :=
  (rules.map fun p =>
    match p.2 data ctx with
    | .ok (.lst l) => l.length
    | _ => 0).sum

/-! ## schemas/operations.py — parameter specs and the operation registry -/
mutual

/-- Python `repr(v)` (best effort; dict repr is not needed by any claim). -/
def pyRepr : PyVal → String
  | .str s => "'" ++ s ++ "'"
  | .int n => toString n
  | .float q => toString q
  | .bool b => if b then "True" else "False"
  | .none => "None"
  | .list xs => "[" ++ String.intercalate ", " (pyReprList xs) ++ "]"
  | .dict _ => "{...}"

def pyReprList : List PyVal → List String
  | [] => []
  | x :: xs => pyRepr x :: pyReprList xs

end

mutual

/-- Python `==` (cross-type numeric equality; `True == 1`; strings by content;
    lists elementwise). Dict comparison is modelled structurally (insertion
    order sensitive) — no claim compares dicts. -/
def pyEq : PyVal → PyVal → Bool
  | .str a, .str b => a == b
  | .none, .none => true
  | .list xs, .list ys => pyEqList xs ys
  | .dict xs, .dict ys => pyEqEntries xs ys
  | a, b => isNum a && isNum b && toRat a == toRat b

def pyEqList : List PyVal → List PyVal → Bool
  | [], [] => true
  | x :: xs, y :: ys => pyEq x y && pyEqList xs ys
  | _, _ => false

def pyEqEntries : List (String × PyVal) → List (String × PyVal) → Bool
  | [], [] => true
  | (k, v) :: xs, (k', v') :: ys => k == k' && pyEq v v' && pyEqEntries xs ys
  | _, _ => false

end

/-- `ParameterType` enum (operations.py lines 26-40). -/
inductive ParameterType where
  | STRING
  | INTEGER
  | FLOAT
  | BOOLEAN
  | LIST
  | DICT
  | CHOICE
  | NUMBER
  | STRING_OR_NUMBER
  | COLUMN_REFERENCE
  | SQL_EXPRESSION
deriving DecidableEq, Repr

/-- `ParameterSpec` dataclass (operations.py lines 43-58). The custom
    `validator` callable returns `Except.error (str e)` to model a raised
    exception. -/
structure ParameterSpec where
  name : String
  param_type : ParameterType
  required : Bool := false
  default : PyVal := .none
  min_value : Option PyVal := Option.none
  max_value : Option PyVal := Option.none
  choices : Option (List PyVal) := Option.none
  description : String := ""
  validator : Option (PyVal → String → String → Except String (List Diag)) := Option.none
  allow_column_references : Bool := false
  allow_sql_expressions : Bool := false

/-- The early-return phase of `ParameterSpec.validate` (operations.py lines
    62-166): required-and-missing, missing-optional, and the per-type checks,
    each of which `return`s immediately; `some errs` models such a `return`,
    `none` means control reaches the range/choice/validator phase. -/
def ParameterSpec.validateEarly (p : ParameterSpec) (value : PyVal) (path : String) :
    Option (List Diag) :=
  let typeErr : String → String → Option (List Diag) := fun expected msg =>
    some [[("type", PyVal.str "invalid_parameter_type"),
           ("message", PyVal.str (p.name ++ ": must be " ++ msg ++ ", got "
             ++ pyTypeName value)),
           ("path", PyVal.str path),
           ("parameter", PyVal.str p.name),
           ("expected_type", PyVal.str expected),
           ("actual_type", PyVal.str (pyTypeName value))]]
  if p.required && isNoneV value then
    some [[("type", PyVal.str "missing_required_parameter"),
           ("message", PyVal.str (p.name ++ ": required parameter is missing")),
           ("path", PyVal.str path),
           ("parameter", PyVal.str p.name)]]
  else if isNoneV value then some []
  else if (p.param_type == .INTEGER) && !isInstInt value then
    typeErr "integer" "integer"
  else if (p.param_type == .FLOAT || p.param_type == .NUMBER) && !isNum value then
    typeErr "number" "number"
  else if (p.param_type == .STRING) && !isStr value then
    typeErr "string" "string"
  else if (p.param_type == .STRING_OR_NUMBER) && !isStrOrNum value then
    typeErr "string_or_number" "string or number"
  else if (p.param_type == .COLUMN_REFERENCE) && !isStrOrNum value then
    typeErr "column_reference_or_number" "string (column reference) or number"
  else if (p.param_type == .BOOLEAN) && !isBool value then
    typeErr "boolean" "boolean"
  else
    Option.none

/-- The `numeric_types` list of `ParameterSpec.validate` (operations.py lines
    169-175). -/
def numericParamTypes : List ParameterType :=
  [.INTEGER, .FLOAT, .NUMBER, .STRING_OR_NUMBER, .COLUMN_REFERENCE]

/-- The range/choice/custom-validator phase of `ParameterSpec.validate`
    (operations.py lines 168-233); reached only when no early `return` fired. -/
def ParameterSpec.validateRest (p : ParameterSpec) (value : PyVal) (path : String) :
    List Diag :=
  let rangeErrs : List Diag :=
    if isNum value && numericParamTypes.contains p.param_type then
      (match p.min_value with
       | some mv =>
           if decide (toRat value < toRat mv) then
             [[("type", PyVal.str "parameter_below_minimum"),
               ("message", PyVal.str (p.name ++ ": must be >= " ++ pyStr mv
                 ++ ", got " ++ pyStr value)),
               ("path", PyVal.str path),
               ("parameter", PyVal.str p.name),
               ("min_value", mv),
               ("actual_value", value)]]
           else []
       | Option.none => []) ++
      (match p.max_value with
       | some mv =>
           if decide (toRat value > toRat mv) then
             [[("type", PyVal.str "parameter_above_maximum"),
               ("message", PyVal.str (p.name ++ ": must be <= " ++ pyStr mv
                 ++ ", got " ++ pyStr value)),
               ("path", PyVal.str path),
               ("parameter", PyVal.str p.name),
               ("max_value", mv),
               ("actual_value", value)]]
           else []
       | Option.none => [])
    else []
  let choiceErrs : List Diag :=
    match p.choices with
    | some cs =>
        -- `if self.choices and not (...)`: an empty choices list is falsy
        if !cs.isEmpty && !(isStr value && p.allow_column_references) then
          if !(cs.any fun c => pyEq value c) then
            [[("type", PyVal.str "invalid_parameter_choice"),
              ("message", PyVal.str (p.name ++ ": must be one of "
                ++ pyRepr (.list cs) ++ ", got " ++ pyStr value)),
              ("path", PyVal.str path),
              ("parameter", PyVal.str p.name),
              ("valid_choices", PyVal.list cs),
              ("actual_value", value)]]
          else []
        else []
    | Option.none => []
  let validatorErrs : List Diag :=
    match p.validator with
    | some f =>
        match f value path p.name with
        | .ok custom => custom
        | .error e =>
            [[("type", PyVal.str "parameter_validation_error"),
              ("message", PyVal.str (p.name ++ ": validation error - " ++ e)),
              ("path", PyVal.str path),
              ("parameter", PyVal.str p.name),
              ("exception", PyVal.str e)]]
    | Option.none => []
  rangeErrs ++ choiceErrs ++ validatorErrs

/-- `ParameterSpec.validate` (operations.py lines 60-233). -/
def ParameterSpec.validate (p : ParameterSpec) (value : PyVal) (path : String) :
    List Diag :=
  match p.validateEarly value path with
  | some errs => errs
  | Option.none => p.validateRest value path

/-- `OperationSpec` dataclass (operations.py lines 237-247);
    `output_type_rules` is always `None` in the catalog. -/
structure OperationSpec where
  name : String
  category : String
  description : String
  parameters : List ParameterSpec
  examples : Option PyVal := Option.none
  requires_column_reference : Bool := false

/-- First-occurrence deduplication, modelling the (arbitrary) order of
    `list({p.name for p in self.parameters})`. -/
def listDedup : List String → List String
  | [] => []
  | x :: xs => if (listDedup xs).contains x then listDedup xs else x :: listDedup xs

/-- The unknown-parameter loop of `OperationSpec.validate_parameters`
    (operations.py lines 268-281). -/
def OperationSpec.unknownParamErrs (spec : OperationSpec)
    (parameters : List (String × PyVal)) (path : String) : List Diag :=
  parameters.filterMap fun kv =>
    if (spec.parameters.map (·.name)).contains kv.1 then Option.none
    else some
      [("type", PyVal.str "unknown_parameter"),
       ("message", PyVal.str (spec.name ++ ": unknown parameter \"" ++ kv.1 ++ "\"")),
       ("path", PyVal.str path),
       ("operation", PyVal.str spec.name),
       ("parameter", PyVal.str kv.1),
       ("valid_parameters",
         PyVal.list ((listDedup (spec.parameters.map (·.name))).map PyVal.str))]

/-- The per-declared-parameter loop of `OperationSpec.validate_parameters`
    (operations.py lines 283-287); `parameters.get(param_spec.name)` is `None`
    for an absent key. -/
def OperationSpec.knownParamErrs (spec : OperationSpec)
    (parameters : List (String × PyVal)) (path : String) : List Diag :=
  (spec.parameters.map fun ps =>
    ps.validate ((dictGet? parameters ps.name).getD .none) path).flatten

/-- `OperationSpec.validate_parameters` (operations.py lines 264-289). -/
def OperationSpec.validate_parameters (spec : OperationSpec)
    (parameters : List (String × PyVal)) (path : String) : List Diag :=
  spec.unknownParamErrs parameters path ++ spec.knownParamErrs parameters path

/-- `OperationRegistry` state: the `operations` and `categories` dicts plus the
    `functools.lru_cache` memo table of `get_operation_cached`, modelled as an
    unbounded memo (its `maxsize=128` eviction never triggers below 128
    distinct keys and is irrelevant to the claims). -/
structure OperationRegistry where
  operations : List (String × OperationSpec)
  categories : List (String × List String)
  cache : List (String × Option OperationSpec)

/-- `OperationRegistry.register_operation` (operations.py lines 768-775): the
    spec overwrites `operations[name]`, the name is appended to the category
    index, and the `lru_cache` of `get_operation_cached` is NOT invalidated. -/
def OperationRegistry.register_operation (r : OperationRegistry)
    (spec : OperationSpec) : OperationRegistry :=
  { operations := dictSet r.operations spec.name spec
    categories :=
      match dictGet? r.categories spec.category with
      | Option.none => r.categories ++ [(spec.category, [spec.name])]
      | some l => dictSet r.categories spec.category (l ++ [spec.name])
    cache := r.cache }

/-- `OperationRegistry.get_operation_cached` (operations.py lines 777-780):
    first call for a name computes `self.operations.get(name)` and memoizes it;
    later calls return the memoized value even if the name was re-registered in
    between. -/
def OperationRegistry.get_operation_cached (r : OperationRegistry) (name : String) :
    Option OperationSpec × OperationRegistry :=
  match dictGet? r.cache name with
  | some v => (v, r)
  | Option.none =>
      let v := dictGet? r.operations name
      (v, { r with cache := r.cache ++ [(name, v)] })

/-- `OperationRegistry.get_operation` (operations.py lines 782-784). -/
def OperationRegistry.get_operation (r : OperationRegistry) (name : String) :
    Option OperationSpec × OperationRegistry :=
  r.get_operation_cached name

/-- The clamp-specific cross-parameter checks of `validate_operation`
    (operations.py lines 811-838), applied when `operation_name == "clamp"`. -/
def clampSpecialErrors (parameters : List (String × PyVal)) (path : String) :
    List Diag :=
  let min_val := (dictGet? parameters "min_value").getD .none
  let max_val := (dictGet? parameters "max_value").getD .none
  if isNoneV min_val && isNoneV max_val then
    [[("type", PyVal.str "missing_clamp_bounds"),
      ("message", PyVal.str
        "clamp: requires at least \"min_value\" or \"max_value\" parameter"),
      ("path", PyVal.str path),
      ("operation", PyVal.str "clamp")]]
  else if isNum min_val && isNum max_val && decide (toRat min_val > toRat max_val) then
    [[("type", PyVal.str "invalid_clamp_range"),
      ("message", PyVal.str ("clamp: min_value (" ++ pyStr min_val
        ++ ") cannot exceed max_value (" ++ pyStr max_val ++ ")")),
      ("path", PyVal.str path),
      ("operation", PyVal.str "clamp"),
      ("min_value", min_val),
      ("max_value", max_val)]]
  else []

/-- `OperationRegistry.validate_operation` (operations.py lines 786-840). -/
def OperationRegistry.validate_operation (r : OperationRegistry)
    (operation_name : String) (parameters : List (String × PyVal)) (path : String) :
    List Diag × OperationRegistry :=
  match r.get_operation operation_name with
  | (Option.none, r') =>
      ([[("type", PyVal.str "invalid_operation_type"),
         ("message", PyVal.str ("Invalid operation type \"" ++ operation_name ++ "\"")),
         ("path", PyVal.str path),
         ("invalid_value", PyVal.str operation_name),
         ("valid_values", PyVal.list (r.operations.map fun kv => PyVal.str kv.1))]], r')
  | (some ospec, r') =>
      let paramErrors := ospec.validate_parameters parameters path
      let specialErrors : List Diag :=
        if operation_name = "clamp" then clampSpecialErrors parameters path else []
      (paramErrors ++ specialErrors, r')

/-! ### The fixed operation catalog (operations.py lines 300-766) -/
/-- `validate_divisor` (operations.py lines 403-414): flags a literal numeric
    zero divisor, never raises. -/
def validate_divisor : PyVal → String → String → Except String (List Diag) :=
  fun value path param_name =>
    .ok (if isNum value && toRat value == 0 then
      [[("type", PyVal.str "division_by_zero"),
        ("message", PyVal.str "divide: factor cannot be zero (division by zero)"),
        ("path", PyVal.str path),
        ("parameter", PyVal.str param_name)]]
    else [])

def trimSpec : OperationSpec :=
  { name := "trim", category := "string",
    description := "Remove whitespace from beginning and end of string",
    parameters := [] }

def lowercaseSpec : OperationSpec :=
  { name := "lowercase", category := "string",
    description := "Convert string to lowercase", parameters := [] }

def uppercaseSpec : OperationSpec :=
  { name := "uppercase", category := "string",
    description := "Convert string to uppercase", parameters := [] }

def replaceSpec : OperationSpec :=
  { name := "replace", category := "string",
    description := "Replace occurrences of search string with replacement",
    parameters :=
      [{ name := "search", param_type := .STRING, required := true,
         description := "String to search for" },
       { name := "replacement", param_type := .STRING, required := true,
         description := "Replacement string" },
       { name := "case_sensitive", param_type := .BOOLEAN, default := .bool true,
         description := "Whether search is case sensitive" }] }

def roundSpec : OperationSpec :=
  { name := "round", category := "numeric",
    description := "Round number to specified precision",
    parameters :=
      [{ name := "precision", param_type := .INTEGER, default := .int 0,
         min_value := some (.int 0), max_value := some (.int 15),
         description := "Number of decimal places" },
       { name := "mode", param_type := .CHOICE, default := .str "HALF_UP",
         choices := some ([.str "HALF_UP", .str "HALF_DOWN", .str "HALF_EVEN",
           .str "UP", .str "DOWN", .str "CEILING", .str "FLOOR"]),
         description := "Rounding mode" }] }

def addSpec : OperationSpec :=
  { name := "add", category := "numeric", description := "Add a value to the number",
    parameters :=
      [{ name := "value", param_type := .COLUMN_REFERENCE, required := true,
         description := "Value to add (can be number or column reference)",
         allow_column_references := true }] }

def subtractSpec : OperationSpec :=
  { name := "subtract", category := "numeric",
    description := "Subtract a value from the number",
    parameters :=
      [{ name := "value", param_type := .COLUMN_REFERENCE, required := true,
         description := "Value to subtract (can be number or column reference)",
         allow_column_references := true }] }

def multiplySpec : OperationSpec :=
  { name := "multiply", category := "numeric",
    description := "Multiply the number by a factor",
    parameters :=
      [{ name := "factor", param_type := .COLUMN_REFERENCE, required := true,
         description := "Multiplication factor (can be number or column reference)",
         allow_column_references := true }] }

def divideSpec : OperationSpec :=
  { name := "divide", category := "numeric",
    description := "Divide the number by a factor",
    parameters :=
      [{ name := "factor", param_type := .COLUMN_REFERENCE, required := true,
         description := "Division factor (can be number or column reference)",
         validator := some validate_divisor,
         allow_column_references := true }] }

def parseCurrencySpec : OperationSpec :=
  { name := "parse_currency", category := "numeric",
    description := "Parse currency value from string",
    parameters :=
      [{ name := "currency_symbol", param_type := .STRING,
         description := "Currency symbol to remove" },
       { name := "thousands_separator", param_type := .STRING, default := .str ",",
         description := "Thousands separator character" },
       { name := "decimal_separator", param_type := .STRING, default := .str ".",
         description := "Decimal separator character" },
       { name := "default_value", param_type := .STRING_OR_NUMBER,
         default := .float 0,
         description := "Default value if parsing fails (can be string or number)" }] }

def parseNumberSpec : OperationSpec :=
  { name := "parse_number", category := "numeric",
    description := "Parse number from string",
    parameters :=
      [{ name := "default_value", param_type := .STRING_OR_NUMBER, default := .int 0,
         description := "Default value if parsing fails (can be string or number)" },
       { name := "base", param_type := .INTEGER, default := .int 10,
         min_value := some (.int 2), max_value := some (.int 36),
         description := "Number base for parsing (2-36)" },
       { name := "number_type", param_type := .CHOICE, default := .str "auto",
         choices := some ([.str "auto", .str "integer", .str "float", .str "decimal"]),
         description := "Target number type" }] }

def ceilSpec : OperationSpec :=
  { name := "ceil", category := "numeric",
    description := "Round up to next integer or specified precision",
    parameters :=
      [{ name := "precision", param_type := .INTEGER, default := .int 0,
         min_value := some (.int 0),
         description := "Decimal places for precision" }] }

def floorSpec : OperationSpec :=
  { name := "floor", category := "numeric",
    description := "Round down to previous integer or specified precision",
    parameters :=
      [{ name := "precision", param_type := .INTEGER, default := .int 0,
         min_value := some (.int 0),
         description := "Decimal places for precision" }] }

def minValueSpec : OperationSpec :=
  { name := "min_value", category := "numeric", description := "Ensure minimum value",
    parameters :=
      [{ name := "min_value", param_type := .COLUMN_REFERENCE, required := true,
         description := "Minimum allowed value (can be number or column reference)",
         allow_column_references := true }] }

def maxValueSpec : OperationSpec :=
  { name := "max_value", category := "numeric", description := "Ensure maximum value",
    parameters :=
      [{ name := "max_value", param_type := .COLUMN_REFERENCE, required := true,
         description := "Maximum allowed value (can be number or column reference)",
         allow_column_references := true }] }

def clampSpec : OperationSpec :=
  { name := "clamp", category := "numeric", description := "Constrain value to a range",
    parameters :=
      [{ name := "min_value", param_type := .COLUMN_REFERENCE,
         description := "Minimum value (can be number or column reference)",
         allow_column_references := true },
       { name := "max_value", param_type := .COLUMN_REFERENCE,
         description := "Maximum value (can be number or column reference)",
         allow_column_references := true }] }

def formatDateSpec : OperationSpec :=
  { name := "format_date", category := "datetime",
    description := "Format date according to pattern",
    parameters :=
      [{ name := "format_pattern", param_type := .STRING, required := true,
         description := "Date format pattern (e.g., YYYY-MM-DD)" },
       { name := "input_format", param_type := .STRING,
         description := "Input date format if different from default" }] }

def caseWhenSpec : OperationSpec :=
  { name := "case_when", category := "conditional",
    description := "Conditional value assignment based on conditions",
    parameters :=
      [{ name := "conditions", param_type := .LIST, required := true,
         description := "List of condition-value pairs" },
       { name := "default_value", param_type := .STRING_OR_NUMBER,
         description := "Default value if no conditions match (can be string or number)" }] }

def stringToNumberSpec : OperationSpec :=
  { name := "string_to_number", category := "conversion",
    description := "Convert string to number",
    parameters :=
      [{ name := "number_type", param_type := .CHOICE, default := .str "decimal",
         choices := some ([.str "integer", .str "decimal", .str "float"]),
         description := "Target number type" },
       { name := "default_value", param_type := .STRING_OR_NUMBER, default := .int 0,
         description := "Default value if conversion fails (can be string or number)" }] }

def sqlExpressionSpec : OperationSpec :=
  { name := "sql_expression", category := "advanced",
    description := "Execute custom SQL expression",
    parameters :=
      [{ name := "expression", param_type := .SQL_EXPRESSION, required := true,
         description := "SQL expression to execute",
         allow_sql_expressions := true },
       { name := "column_references", param_type := .LIST,
         description := "List of column names referenced in expression" }] }

/-- The global `OPERATION_REGISTRY = OperationRegistry()` instance, populated
    by `_initialize_operations` in source registration order (string, numeric,
    datetime, conditional, conversion). -/
def OPERATION_REGISTRY : OperationRegistry :=
  [trimSpec, lowercaseSpec, uppercaseSpec, replaceSpec,
   roundSpec, addSpec, subtractSpec, multiplySpec, divideSpec,
   parseCurrencySpec, parseNumberSpec,
   ceilSpec, floorSpec, minValueSpec, maxValueSpec, clampSpec,
   formatDateSpec, caseWhenSpec, stringToNumberSpec, sqlExpressionSpec].foldl
    OperationRegistry.register_operation ⟨[], [], []⟩

/-! ## String helpers shared by the validators.py embeddings -/
/-- Python whitespace (`str.split()` / regex `\s`), ASCII range: space, tab,
    newline, carriage return, vertical tab, form feed. -/
def pyIsSpace (c : Char) : Bool :=
  c == ' ' || c == '\t' || c == '\n' || c == '\r' || c == Char.ofNat 11 || c == Char.ofNat 12

/-- Regex `[a-zA-Z_]` (identifier start). -/
def isIdentStart (c : Char) : Bool :=
  (c.isUpper || c.isLower) || c == '_'

/-- Regex `[a-zA-Z0-9_]` (identifier continuation). -/
def isIdentChar (c : Char) : Bool :=
  isIdentStart c || c.isDigit

/-- `sub` is a prefix of `s` (character lists). -/
def listIsPrefixOf : List Char → List Char → Bool
  | [], _ => true
  | _ :: _, [] => false
  | a :: as, b :: bs => a == b && listIsPrefixOf as bs

/-- Python `sub in s`: `sub` occurs contiguously somewhere in `s`. -/
def listContainsSub (sub s : List Char) : Bool :=
  if listIsPrefixOf sub s then true
  else
    match s with
    | [] => false
    | _ :: rest => listContainsSub sub rest

/-- Python `sub in s` on strings. -/
def strContains (s sub : String) : Bool :=
  listContainsSub sub.data s.data

/-- ASCII lower-casing of one character. -/
def charLower (c : Char) : Char :=
  if c.isUpper then Char.ofNat (c.toNat + 32) else c

/-- Python `s.lower()` (inputs under study are ASCII). -/
def pyLower (s : String) : String :=
  String.mk (s.data.map charLower)

/-- Accumulator pass of Python `str.split()`: split on whitespace runs,
    discarding empty pieces. -/
def splitWsAux : List Char → List Char → List (List Char)
  | [], acc => if acc.isEmpty then [] else [acc.reverse]
  | c :: cs, acc =>
      if pyIsSpace c then
        if acc.isEmpty then splitWsAux cs [] else acc.reverse :: splitWsAux cs []
      else splitWsAux cs (c :: acc)

/-- Python `s.split()` (no separator: whitespace runs, no empty pieces). -/
def pySplitWs (s : String) : List String :=
  (splitWsAux s.data []).map fun w => String.mk w

/-- `" ".join(words)` at character-list level. -/
def joinWords : List (List Char) → List Char
  | [] => []
  | [w] => w
  | w :: ws => w ++ ' ' :: joinWords ws

/-- `" ".join(expression.split())` at character-list level. -/
def normalizeWsL (l : List Char) : List Char :=
  joinWords (splitWsAux l [])

/-- `" ".join(expression.split())` — the whitespace normalization applied by
    the validators before alias processing. -/
def normalizeWs (s : String) : String :=
  String.mk (normalizeWsL s.data)

/-- Python `s.strip()` (whitespace from both ends). -/
def pyStrip (s : String) : String :=
  String.mk (((s.data.dropWhile pyIsSpace).reverse.dropWhile pyIsSpace).reverse)

/-- Python `s.strip(chars)` (any of `chars` from both ends). -/
def pyStripChars (s : String) (cs : List Char) : String :=
  String.mk (((s.data.dropWhile cs.contains).reverse.dropWhile cs.contains).reverse)

/-- Python `s.split(sep)` on character lists (`sep` non-empty at all call
    sites; non-overlapping, left to right), with an accumulator for the piece
    being built. Structural recursion on a fuel argument (initially the input
    length; each step consumes at least one character, so the fuel never runs
    out). -/
def pySplitOnAux (sep : List Char) : Nat → List Char → List Char → List (List Char)
  | _, [], acc => [acc.reverse]
  | 0, l, acc => [acc.reverse ++ l]
  | fuel + 1, c :: cs, acc =>
      if sep ≠ [] && listIsPrefixOf sep (c :: cs) then
        acc.reverse :: pySplitOnAux sep fuel (cs.drop (sep.length - 1)) []
      else pySplitOnAux sep fuel cs (c :: acc)

/-- Python `s.split(sep)` on strings. -/
def strSplitOn (s sep : String) : List String :=
  (pySplitOnAux sep.data s.data.length s.data []).map String.mk

/-- Ordered insertion-based model of a Python `set` of strings: membership
    semantics are what matters; first-insertion order is kept. -/
def setAdd (s : List String) (x : String) : List String :=
  if s.contains x then s else s ++ [x]

/-- Python set difference `a - b` over the list model. -/
def setDiff (a b : List String) : List String :=
  a.filter fun x => !b.contains x

/-- Lexicographic character-list comparison (Python string `<=`). -/
def listCharLe : List Char → List Char → Bool
  | [], _ => true
  | _ :: _, [] => false
  | a :: as, b :: bs => if a == b then listCharLe as bs else decide (a.toNat < b.toNat)

/-- Insertion step of `sortStrings`. -/
def insertSorted (x : String) : List String → List String
  | [] => [x]
  | y :: ys => if listCharLe x.data y.data then x :: y :: ys else y :: insertSorted x ys

/-- Deterministic model of Python's `sorted(...)` on a string set. -/
def sortStrings : List String → List String
  | [] => []
  | x :: xs => insertSorted x (sortStrings xs)

/-! ## validators.py — the suspicious-SQL-function scan (claim C2)

`ComprehensiveYamlValidator._validate_sql_security` (validators.py lines
1368-1475) consists of three passes; `suspicious_sql_function` diagnostics are
produced only by the second pass (lines 1419-1445), embedded here. The first
pass (dangerous regex patterns) and third pass (complexity heuristic) emit
diagnostics of other types and cannot affect the claim. -/
/-- The `suspicious_functions` list (validators.py lines 1420-1430). -/
def suspiciousFunctions : List String :=
  ["xp_cmdshell", "sp_configure", "openrowset", "opendatasource",
   "exec", "execute", "eval", "script", "shell"]

/-- The 100-character excerpt truncation used in the diagnostics. -/
def truncExpr (expression : String) : String :=
  if expression.length > 100 then (expression.take 100) ++ "..." else expression

/-- The suspicious-function loop (validators.py lines 1432-1445): plain
    substring search `func.lower() in expression.lower()`, one CRITICAL
    diagnostic per matching function name. -/
def suspiciousFunctionScan (expression : String) : List Diag :=
  suspiciousFunctions.filterMap fun func =>
    if strContains (pyLower expression) (pyLower func) then
      some
        [("type", PyVal.str "suspicious_sql_function"),
         ("message", PyVal.str ("Suspicious SQL function detected: " ++ func)),
         ("severity", PyVal.str "critical"),
         ("function", PyVal.str func),
         ("expression", PyVal.str (truncExpr expression)),
         ("suggestion", PyVal.str ("Remove or replace " ++ func
           ++ " function if not necessary"))]
    else Option.none

/-! ## validators.py — `_validate_column_consistency_rule` (claim C3)

Embedding of `ComprehensiveYamlValidator._validate_column_consistency_rule`
(validators.py lines 1208-1328). Python set-repr order inside message strings
is hash-dependent; messages here serialize sets deterministically (sorted),
which no claim inspects. -/
/-- The regex search `re.search(r'"\s+([a-zA-Z_][a-zA-Z0-9_]*)$', s)` tried at
    the head of the list: a quote, one-or-more whitespace, then an identifier
    running to the end of the string; returns the captured identifier. -/
def quoteAliasAt : List Char → Option (List Char)
  | '"' :: rest =>
      let ws := rest.takeWhile pyIsSpace
      let rest2 := rest.dropWhile pyIsSpace
      if ws.isEmpty then Option.none
      else
        match rest2 with
        | c :: cs =>
            if isIdentStart c && cs.all isIdentChar then some (c :: cs)
            else Option.none
        | [] => Option.none
  | _ => Option.none

/-- Leftmost search for the quoted-identifier-then-bare-alias pattern. -/
def quoteAliasSearch : List Char → Option (List Char)
  | [] => Option.none
  | c :: cs =>
      match quoteAliasAt (c :: cs) with
      | some g => some g
      | Option.none => quoteAliasSearch cs

/-- Alias/column extraction for one `source_columns_interested` entry
    (validators.py lines 1226-1257). Returns `none` when the entry contributes
    nothing to the set (a malformed CASE split). -/
def sourceColAlias (col : String) : Option String :=
  let normalized_col := normalizeWs col
  if strContains (pyLower normalized_col) " as " then
    if strContains (pyLower normalized_col) "case"
        && strContains (pyLower normalized_col) "end as" then
      -- CASE statement: split the lowered text on "end as ", take parts[1]
      let parts := strSplitOn (pyLower normalized_col) "end as "
      if parts.length == 2 then some (pyStrip (parts.getD 1 "")) else Option.none
    else
      -- standard alias: lowered text split on " as ", parts[1]
      some (pyStrip ((strSplitOn (pyLower normalized_col) " as ").getD 1 ""))
  else
    match (if normalized_col.data.count '"' ≥ 2 then
        quoteAliasSearch normalized_col.data else Option.none) with
    | some g => some (String.mk g)
    | Option.none =>
        -- simple column: last dot-component, quotes stripped
        let column_parts := strSplitOn (pyStrip normalized_col) "."
        some (pyStripChars (column_parts.getLastD "") ['"', '\''])

/-- Build-up of `source_columns_set` (validators.py lines 1223-1257). -/
def sourceColStep (acc : List String) (col : PyVal) : List String :=
  match col with
  | .str s =>
      match sourceColAlias s with
      | some a => setAdd acc a
      | Option.none => acc
  | _ => acc

def sourceColumnsSet (mapping : Diag) : List String :=
  match dget mapping "source_columns_interested" with
  | some (.list cols) => cols.foldl sourceColStep []
  | _ => []

/-- Build-up of `mapped_columns_set` (validators.py lines 1259-1262); dict keys
    are strings in the model, so `str(source_col)` is the key itself. -/
def mappedColumnsSet (mapping : Diag) : List String :=
  match dget mapping "columns_mapping" with
  | some (.dict entries) => entries.foldl (fun acc kv => setAdd acc kv.1) []
  | _ => []

/-- Build-up of `duplicated_source_columns_set` (validators.py lines
    1264-1269). -/
def duplicatedSourceColumnsSet (mapping : Diag) : List String :=
  match dget mapping "column_duplications" with
  | some (.list dups) =>
      dups.foldl (fun acc dup =>
        match dup with
        | .dict d =>
            match dget d "source_column" with
            | some v => setAdd acc (pyStr v)
            | Option.none => acc
        | _ => acc) []
  | _ => []

/-- Build-up of `transformation_columns_set` (validators.py lines
    1274-1278). -/
def transStep (acc : List String) (t : PyVal) : List String :=
  match t with
  | .dict d =>
      match dget d "source_alias" with
      | some v => setAdd acc (pyStr v)
      | Option.none => acc
  | _ => acc

def transformationColumnsSet (mapping : Diag) : List String :=
  match dget mapping "column_transformations" with
  | some (.list ts) => ts.foldl transStep []
  | _ => []

/-- `_validate_column_consistency_rule` (validators.py lines 1208-1328):
    the three cross-section checks; each fires only when its orphan set AND
    the derived source set are both non-empty; returns `warnings + errors`. -/
def validateColumnConsistencyRule (mapping : Diag) (ctx : VContext) : List Diag :=
  let mapping_name := dgetD mapping "mapping_name" (.str "unknown")
  let source := sourceColumnsSet mapping
  let mapped := mappedColumnsSet mapping
  let dupSource := duplicatedSourceColumnsSet mapping
  let trans := transformationColumnsSet mapping
  let orphaned_mapped := setDiff mapped source
  let warnings₁ : List Diag :=
    if !orphaned_mapped.isEmpty && !source.isEmpty then
      [[("type", PyVal.str "orphaned_mapped_columns"),
        ("message", PyVal.str ("Columns in mapping but not in source_columns_interested: "
          ++ String.intercalate ", " (sortStrings orphaned_mapped))),
        ("severity", PyVal.str sevError),
        ("path", PyVal.str (ctx.get_path "columns_mapping")),
        ("mapping", mapping_name),
        ("orphaned_columns", PyVal.list (orphaned_mapped.map PyVal.str)),
        ("suggestion", PyVal.str "Ensure mapped columns are included in source_columns_interested")]]
    else []
  let orphaned_duplicated := setDiff dupSource source
  let warnings₂ : List Diag :=
    if !orphaned_duplicated.isEmpty && !source.isEmpty then
      [[("type", PyVal.str "orphaned_duplicated_columns"),
        ("message", PyVal.str ("Duplicated columns not in source_columns_interested: "
          ++ String.intercalate ", " (sortStrings orphaned_duplicated))),
        ("severity", PyVal.str sevError),
        ("path", PyVal.str (ctx.get_path "column_duplications")),
        ("mapping", mapping_name),
        ("orphaned_columns", PyVal.list (orphaned_duplicated.map PyVal.str)),
        ("suggestion", PyVal.str "Ensure duplicated columns are included in source_columns_interested")]]
    else []
  let orphaned_transformations := setDiff trans source
  let errors₁ : List Diag :=
    if !orphaned_transformations.isEmpty && !source.isEmpty then
      [[("type", PyVal.str "orphaned_transformation_columns"),
        ("message", PyVal.str ("Column transformation source aliases not found in source_columns_interested: "
          ++ String.intercalate ", " (sortStrings orphaned_transformations))),
        ("severity", PyVal.str sevError),
        ("path", PyVal.str (ctx.get_path "column_transformations")),
        ("mapping", mapping_name),
        ("orphaned_columns", PyVal.list (orphaned_transformations.map PyVal.str)),
        ("available_columns", PyVal.list
          ((if !source.isEmpty then sortStrings source else []).map PyVal.str)),
        ("suggestion", PyVal.str ("Add missing aliases to source_columns_interested or update source_alias in transformations. Available: "
          ++ pyRepr (.list ((sortStrings source).map PyVal.str))))]]
    else []
  (warnings₁ ++ warnings₂) ++ errors₁

/-! ### Claim C1 -/
/-- The builder state of `ValidationResultBuilder().add_error("t", "m",
    severity="warning")`: one diagnostic in the errors list whose severity is
    WARNING. -/
def c1Builder : Builder :=
  Builder.add_error {} "t" "m" Option.none Option.none sevWarning []

/-! ## validators.py — `SQLExpressionColumnValidator._extract_alias_from_expression`
(claim C8)

Embedding of the alias-extraction cascade (validators.py lines 1490-1512 and
1791-1832): five regex patterns tried in priority order over the
whitespace-normalized expression, then the quoted-identifier fallback.

Each Python regex is rendered as a structurally recursive matcher. Greedy
sub-patterns whose following element is disjoint from their character class
(`\s+` before `as`/`end`/an identifier, the identifier group itself,
`[^)]*` before `)`) are implemented by maximal munch, which is equivalent to
the regex engine's greedy-matching-with-backtracking for those patterns.
`[^)]+`/`[^(]+` (whose backtracking is observable) get an explicit longest-
first give-back loop, and the lazy `.*?` of the CASE pattern a shortest-first
scan. The matchers are only ever applied to whitespace-normalized text (as in
the source, which normalizes first), where whitespace runs have length one, so
`\s+` is deterministic. -/
/-- Regex word character (`\w`), for `\b` boundaries. -/
def isWordChar (c : Char) : Bool :=
  isIdentChar c

/-- `\s+` followed by a non-whitespace element: consume one-or-more whitespace
    characters (maximal munch). -/
def parseWs1 : List Char → Option (List Char)
  | c :: cs => if pyIsSpace c then some (cs.dropWhile pyIsSpace) else Option.none
  | [] => Option.none

/-- Case-insensitive literal. -/
def parseCI (lit : List Char) (s : List Char) : Option (List Char) :=
  match lit, s with
  | [], rest => some rest
  | _ :: _, [] => Option.none
  | l :: ls, c :: cs => if charLower c == charLower l then parseCI ls cs else Option.none

/-- The capture group `([a-zA-Z_][a-zA-Z0-9_]*)` (greedy): returns the group
    and the remainder. -/
def parseIdent : List Char → Option (List Char × List Char)
  | c :: cs =>
      if isIdentStart c then some (c :: cs.takeWhile isIdentChar, cs.dropWhile isIdentChar)
      else Option.none
  | [] => Option.none

/-- `\s+as\s+([a-zA-Z_][a-zA-Z0-9_]*)` — the common tail of all five alias
    patterns. -/
def parseAsGroup (s : List Char) : Option (List Char × List Char) := do
  let s1 ← parseWs1 s
  let s2 ← parseCI ['a', 's'] s1
  let s3 ← parseWs1 s2
  parseIdent s3

/-- `alias_pattern`: `\s+as\s+([a-zA-Z_][a-zA-Z0-9_]*)\s*$` tried at one
    position. -/
def aliasPatternAt (s : List Char) : Option (List Char) := do
  let (g, rest) ← parseAsGroup s
  if rest.all pyIsSpace then some g else Option.none

/-- `\s+end\s+as\s+(ident)` — the continuation searched by the CASE pattern's
    lazy `.*?`. -/
def parseEndAsGroup (s : List Char) : Option (List Char × List Char) := do
  let s1 ← parseWs1 s
  let s2 ← parseCI ['e', 'n', 'd'] s1
  parseAsGroup s2

/-- Shortest-first scan for the CASE continuation (the lazy `.*?`). -/
def caseTail : List Char → Option (List Char × List Char)
  | [] => parseEndAsGroup []
  | c :: cs =>
      match parseEndAsGroup (c :: cs) with
      | some r => some r
      | Option.none => caseTail cs

/-- `case_statement`: `\bcase\s+.*?\s+end\s+as\s+(ident)` (IGNORECASE|DOTALL)
    tried at one position (the `\b` is handled by the scanner). -/
def caseAt (s : List Char) : Option (List Char) := do
  let s1 ← parseCI ['c', 'a', 's', 'e'] s
  match s1 with
  | c :: cs => if pyIsSpace c then (caseTail cs).map (·.1) else Option.none
  | [] => Option.none

/-- `function_call`: `\b[a-zA-Z_][a-zA-Z0-9_]*\s*\([^)]*\)\s+as\s+(ident)`
    tried at one position. -/
def funcAt (s : List Char) : Option (List Char) := do
  let (_, s1) ← parseIdent s
  let s2 := s1.dropWhile pyIsSpace
  match s2 with
  | '(' :: s3 =>
      match s3.dropWhile (· != ')') with
      | ')' :: s5 => (parseAsGroup s5).map (·.1)
      | _ => Option.none
  | _ => Option.none

/-- Greedy `[class]+` with give-back: consume the maximal run of characters
    satisfying `p`, then retry the continuation `k`, giving back one character
    at a time (longest first), requiring at least one consumed character. -/
def greedyGo (k : List Char → Option (List Char)) :
    List Char → List Char → Option (List Char)
  | [], _ => Option.none
  | c :: consRev, rest =>
      match k rest with
      | some r => some r
      | Option.none => greedyGo k consRev (c :: rest)

def greedyPlus (p : Char → Bool) (s : List Char) (k : List Char → Option (List Char)) :
    Option (List Char) :=
  greedyGo k (s.takeWhile p).reverse (s.dropWhile p)

/-- `math_expression`: `[^)]+[+\-*/][^(]+\s+as\s+(ident)` tried at one
    position. -/
def mathAt (s : List Char) : Option (List Char) :=
  greedyPlus (fun c => c != ')') s fun s1 =>
    match s1 with
    | c :: cs =>
        if c == '+' || c == '-' || c == '*' || c == '/' then
          greedyPlus (fun c => c != '(') cs fun s2 => (parseAsGroup s2).map (·.1)
        else Option.none
    | [] => Option.none

/-- `concat_expression`: `[^)]+\|\|[^(]+\s+as\s+(ident)` tried at one
    position. -/
def concatAt (s : List Char) : Option (List Char) :=
  greedyPlus (fun c => c != ')') s fun s1 =>
    match s1 with
    | '|' :: '|' :: cs =>
        greedyPlus (fun c => c != '(') cs fun s2 => (parseAsGroup s2).map (·.1)
    | _ => Option.none

/-- `re.search` (leftmost match) for a pattern with no word-boundary prefix. -/
def scanNoPrev (tryAt : List Char → Option (List Char)) : List Char → Option (List Char)
  | [] => tryAt []
  | c :: cs =>
      match tryAt (c :: cs) with
      | some g => some g
      | Option.none => scanNoPrev tryAt cs

/-- `re.search` for a pattern starting with `\b` before a word character:
    positions whose preceding character is a word character are skipped. -/
def scanBound (tryAt : List Char → Option (List Char)) :
    Bool → List Char → Option (List Char)
  | prevW, [] => if prevW then Option.none else tryAt []
  | prevW, c :: cs =>
      match (if prevW then Option.none else tryAt (c :: cs)) with
      | some g => some g
      | Option.none => scanBound tryAt (isWordChar c) cs

/-- `SQLExpressionColumnValidator._extract_alias_from_expression`
    (validators.py lines 1791-1832): normalize whitespace, then try the six
    shapes in priority order. -/
def extract_alias_from_expression (expression : String) : Option String :=
  let s := normalizeWsL expression.data
  match scanBound caseAt false s with
  | some g => some (String.mk g)
  | Option.none =>
  match scanBound funcAt false s with
  | some g => some (String.mk g)
  | Option.none =>
  match scanNoPrev mathAt s with
  | some g => some (String.mk g)
  | Option.none =>
  match scanNoPrev concatAt s with
  | some g => some (String.mk g)
  | Option.none =>
  match scanNoPrev aliasPatternAt s with
  | some g => some (String.mk g)
  | Option.none =>
  if s.count '"' ≥ 2 then
    match quoteAliasSearch s with
    | some g => some (String.mk g)
    | Option.none => Option.none
  else Option.none

/-- `^[a-zA-Z_][a-zA-Z0-9_]*$` — the alias shape named by the claim. -/
def listIsIdent : List Char → Bool
  | [] => false
  | c :: cs => isIdentStart c && cs.all isIdentChar

/-- A case-insensitive ` as ` occurrence (`\s`,`a`,`s`,`\s`) at the head. -/
def isAsOccAt : List Char → Bool
  | c1 :: c2 :: c3 :: c4 :: _ =>
      pyIsSpace c1 && (charLower c2 == 'a') && (charLower c3 == 's') && pyIsSpace c4
  | _ => false

/-- Number of case-insensitive ` as ` occurrences in a string. -/
def countAsOcc : List Char → Nat
  | [] => 0
  | c :: cs => (if isAsOccAt (c :: cs) then 1 else 0) + countAsOcc cs

/-- A case-insensitive ` end as ` occurrence at the head. -/
def isEndAsOccAt : List Char → Bool
  | c1 :: c2 :: c3 :: c4 :: c5 :: c6 :: c7 :: c8 :: _ =>
      pyIsSpace c1 && (charLower c2 == 'e') && (charLower c3 == 'n')
        && (charLower c4 == 'd') && pyIsSpace c5 && (charLower c6 == 'a')
        && (charLower c7 == 's') && pyIsSpace c8
  | _ => false

/-- Number of case-insensitive ` end as ` occurrences in a string. -/
def countEndAsOcc : List Char → Nat
  | [] => 0
  | c :: cs => (if isEndAsOccAt (c :: cs) then 1 else 0) + countEndAsOcc cs

/-- No two adjacent whitespace characters (whitespace-normalized text). -/
def noDoubleWs : List Char → Bool
  | c1 :: c2 :: rest => !(pyIsSpace c1 && pyIsSpace c2) && noDoubleWs (c2 :: rest)
  | _ => true

/-! ### C8 proof infrastructure: occurrences, suffixes, normalized text -/
/-- Number of suffixes at which a head-anchored pattern `p` fires. -/
def countOccBy (p : List Char → Bool) : List Char → Nat
  | [] => if p [] then 1 else 0
  | c :: cs => (if p (c :: cs) then 1 else 0) + countOccBy p cs

/-! ## Theorems -/

/-! ### Engine accumulation lemmas -/
/-- `bucketDiag` only appends to the builder's lists. -/
lemma bucketDiag_acc (meta : RuleMeta) (b : Builder) (item : Diag) :
    (bucketDiag meta b item).errors = b.errors ++ (bucketDiag meta {} item).errors ∧
    (bucketDiag meta b item).warnings = b.warnings ++ (bucketDiag meta {} item).warnings ∧
    (bucketDiag meta b item).info = b.info ++ (bucketDiag meta {} item).info := by
  unfold bucketDiag
  dsimp only
  split_ifs <;> simp

/-- Folding `bucketDiag` over a list only appends to the builder's lists. -/
lemma foldlBucket_acc (meta : RuleMeta) :
    ∀ (l : List Diag) (b : Builder),
      (l.foldl (bucketDiag meta) b).errors
          = b.errors ++ (l.foldl (bucketDiag meta) {}).errors ∧
      (l.foldl (bucketDiag meta) b).warnings
          = b.warnings ++ (l.foldl (bucketDiag meta) {}).warnings ∧
      (l.foldl (bucketDiag meta) b).info
          = b.info ++ (l.foldl (bucketDiag meta) {}).info := by
  intro l
  induction l with
  | nil => intro b; simp
  | cons d l ih =>
      intro b
      simp only [List.foldl_cons]
      obtain ⟨he₁, hw₁, hi₁⟩ := ih (bucketDiag meta b d)
      obtain ⟨he₂, hw₂, hi₂⟩ := ih (bucketDiag meta {} d)
      obtain ⟨he₃, hw₃, hi₃⟩ := bucketDiag_acc meta b d
      refine ⟨?_, ?_, ?_⟩
      · rw [he₁, he₂, he₃, List.append_assoc]
      · rw [hw₁, hw₂, hw₃, List.append_assoc]
      · rw [hi₁, hi₂, hi₃, List.append_assoc]

/-- One rule-loop iteration only appends to the builder's lists. -/
lemma ruleStep_acc (data : PyVal) (ctx : VContext) (name : String) (f : RuleFn)
    (meta : RuleMeta) (b : Builder) :
    (ruleStep data ctx name f meta b).errors
        = b.errors ++ (ruleStep data ctx name f meta {}).errors ∧
    (ruleStep data ctx name f meta b).warnings
        = b.warnings ++ (ruleStep data ctx name f meta {}).warnings ∧
    (ruleStep data ctx name f meta b).info
        = b.info ++ (ruleStep data ctx name f meta {}).info := by
  unfold ruleStep
  rcases hf : f data ctx with e | r
  · simp [Builder.add_error]
  · rcases r with r | l | d | _
    · simp
    · exact foldlBucket_acc meta l b
    · exact bucketDiag_acc meta b d
    · simp

/-- The `apply_rules` loop only appends to the builder's lists. -/
lemma applyRulesAux_acc (metas : List (String × RuleMeta)) (data : PyVal)
    (ctx : VContext) (cats : List String) :
    ∀ (rules : List (String × RuleFn)) (b : Builder),
      (applyRulesAux metas data ctx cats rules b).errors
          = b.errors ++ (applyRulesAux metas data ctx cats rules {}).errors ∧
      (applyRulesAux metas data ctx cats rules b).warnings
          = b.warnings ++ (applyRulesAux metas data ctx cats rules {}).warnings ∧
      (applyRulesAux metas data ctx cats rules b).info
          = b.info ++ (applyRulesAux metas data ctx cats rules {}).info := by
  intro rules
  induction rules with
  | nil => intro b; simp [applyRulesAux]
  | cons p rest ih =>
      intro b
      obtain ⟨name, f⟩ := p
      simp only [applyRulesAux]
      set meta := (dictGet? metas name).getD defaultRuleMeta with hmeta
      by_cases hskip :
          (!cats.isEmpty && !(cats.any fun cat => meta.categories.contains cat)) = true
      · rw [if_pos hskip, if_pos hskip]
        exact ih b
      · rw [if_neg hskip, if_neg hskip]
        obtain ⟨he₁, hw₁, hi₁⟩ := ih (ruleStep data ctx name f meta b)
        obtain ⟨he₂, hw₂, hi₂⟩ := ih (ruleStep data ctx name f meta {})
        obtain ⟨he₃, hw₃, hi₃⟩ := ruleStep_acc data ctx name f meta b
        refine ⟨?_, ?_, ?_⟩
        · rw [he₁, he₂, he₃, List.append_assoc]
        · rw [hw₁, hw₂, hw₃, List.append_assoc]
        · rw [hi₁, hi₂, hi₃, List.append_assoc]

/-- Splitting the `apply_rules` loop over a list concatenation. -/
lemma applyRulesAux_append (metas : List (String × RuleMeta)) (data : PyVal)
    (ctx : VContext) (cats : List String) :
    ∀ (l₁ l₂ : List (String × RuleFn)) (b : Builder),
      applyRulesAux metas data ctx cats (l₁ ++ l₂) b
        = applyRulesAux metas data ctx cats l₂ (applyRulesAux metas data ctx cats l₁ b) := by
  intro l₁
  induction l₁ with
  | nil => intro l₂ b; simp [applyRulesAux]
  | cons p rest ih =>
      intro l₂ b
      obtain ⟨name, f⟩ := p
      simp only [List.cons_append, applyRulesAux]
      exact ih l₂ _

/-! ### Claim C4 -/
/-- C4: if a rule function raises during `apply_rules` (with the default
    `rule_categories=None`), the engine appends exactly one
    `rule_execution_error` diagnostic carrying the rule name and the exception
    text, still applies the rules before and after it, and returns the frozen
    (built) result — the overall errors/warnings/info lists are those of the
    surrounding rules with the single extra diagnostic spliced in, and the
    exception never propagates (the model's `apply_rules` is total). -/
theorem c4_rule_exception_isolated (metas : List (String × RuleMeta))
    (pre post : List (String × RuleFn)) (name : String) (f : RuleFn)
    (data : PyVal) (ctx : VContext) (e : String)
    (hraise : f data ctx = Except.error e) :
    ((⟨pre ++ (name, f) :: post, metas⟩ : RuleEngine).apply_rules data ctx []).errors
        = (RuleEngine.apply_rules ⟨pre, metas⟩ data ctx []).errors
            ++ ruleExecErrorDiag name e ctx
              :: (RuleEngine.apply_rules ⟨post, metas⟩ data ctx []).errors ∧
    ((⟨pre ++ (name, f) :: post, metas⟩ : RuleEngine).apply_rules data ctx []).warnings
        = (RuleEngine.apply_rules ⟨pre, metas⟩ data ctx []).warnings
            ++ (RuleEngine.apply_rules ⟨post, metas⟩ data ctx []).warnings ∧
    ((⟨pre ++ (name, f) :: post, metas⟩ : RuleEngine).apply_rules data ctx []).info
        = (RuleEngine.apply_rules ⟨pre, metas⟩ data ctx []).info
            ++ (RuleEngine.apply_rules ⟨post, metas⟩ data ctx []).info ∧
    ((⟨pre ++ (name, f) :: post, metas⟩ : RuleEngine).apply_rules data ctx []).is_valid
        = false := by
  have hstep : ∀ b : Builder,
      ruleStep data ctx name f ((dictGet? metas name).getD defaultRuleMeta) b
        = { b with errors := b.errors ++ [ruleExecErrorDiag name e ctx] } := by
    intro b
    unfold ruleStep
    rw [hraise]
    rfl
  have hmain :
      applyRulesAux metas data ctx [] (pre ++ (name, f) :: post) ({} : Builder)
        = applyRulesAux metas data ctx [] post
            { applyRulesAux metas data ctx [] pre ({} : Builder) with
              errors := (applyRulesAux metas data ctx [] pre ({} : Builder)).errors
                ++ [ruleExecErrorDiag name e ctx] } := by
    rw [applyRulesAux_append]
    simp only [applyRulesAux, List.isEmpty_nil, Bool.not_true, Bool.false_and,
      Bool.false_eq_true, if_false]
    rw [hstep]
  have hpreE : (RuleEngine.apply_rules ⟨pre, metas⟩ data ctx []).errors
      = (applyRulesAux metas data ctx [] pre ({} : Builder)).errors := rfl
  have hpostE : (RuleEngine.apply_rules ⟨post, metas⟩ data ctx []).errors
      = (applyRulesAux metas data ctx [] post ({} : Builder)).errors := rfl
  obtain ⟨haccE, haccW, haccI⟩ := applyRulesAux_acc metas data ctx [] post
    { applyRulesAux metas data ctx [] pre ({} : Builder) with
      errors := (applyRulesAux metas data ctx [] pre ({} : Builder)).errors
        ++ [ruleExecErrorDiag name e ctx] }
  have herr :
      ((⟨pre ++ (name, f) :: post, metas⟩ : RuleEngine).apply_rules data ctx []).errors
        = (RuleEngine.apply_rules ⟨pre, metas⟩ data ctx []).errors
            ++ ruleExecErrorDiag name e ctx
              :: (RuleEngine.apply_rules ⟨post, metas⟩ data ctx []).errors := by
    show (applyRulesAux metas data ctx [] (pre ++ (name, f) :: post) ({} : Builder)).errors = _
    rw [hmain, haccE, hpreE, hpostE]
    simp
  refine ⟨herr, ?_, ?_, ?_⟩
  · show (applyRulesAux metas data ctx [] (pre ++ (name, f) :: post) ({} : Builder)).warnings = _
    rw [hmain, haccW]
    rfl
  · show (applyRulesAux metas data ctx [] (pre ++ (name, f) :: post) ({} : Builder)).info = _
    rw [hmain, haccI]
    rfl
  · have hv :
        ((⟨pre ++ (name, f) :: post, metas⟩ : RuleEngine).apply_rules data ctx []).is_valid
          = ((⟨pre ++ (name, f) :: post, metas⟩ : RuleEngine).apply_rules
              data ctx []).errors.isEmpty := rfl
    rw [hv, herr]
    simp

/-- C4 witness: a one-rule engine whose rule raises `"boom"` yields exactly the
    single `rule_execution_error` diagnostic and an invalid result. -/
theorem c4_rule_exception_isolated_witness :
    ((⟨[("rule1", fun _ _ => Except.error "boom")], []⟩ : RuleEngine).apply_rules
        PyVal.none {} []).errors = [ruleExecErrorDiag "rule1" "boom" {}] ∧
    ((⟨[("rule1", fun _ _ => Except.error "boom")], []⟩ : RuleEngine).apply_rules
        PyVal.none {} []).is_valid = false := by
  have h := c4_rule_exception_isolated [] [] [] "rule1"
    (fun _ _ => Except.error "boom") PyVal.none {} "boom" rfl
  exact ⟨by simpa using h.1, h.2.2.2⟩

/-! ### Claim C10 -/
/-- Folding `bucketDiag` over diagnostics that all carry severity `"critical"`
    routes every one of them to the info bucket. -/
lemma foldlBucket_allCritical (meta : RuleMeta) :
    ∀ (l : List Diag) (b : Builder),
      (∀ d ∈ l, dget d "severity" = some (PyVal.str "critical")) →
      l.foldl (bucketDiag meta) b = { b with info := b.info ++ l } := by
  intro l
  induction l with
  | nil => intro b _; simp
  | cons d l ih =>
      intro b hcrit
      have hd : dget d "severity" = some (PyVal.str "critical") := hcrit d (by simp)
      have hbucket : bucketDiag meta b d = { b with info := b.info ++ [d] } := by
        unfold bucketDiag
        dsimp only
        rw [show dgetD d "severity" (PyVal.str meta.severity) = PyVal.str "critical" by
          unfold dgetD; rw [hd]; rfl]
        rfl
      simp only [List.foldl_cons, hbucket]
      rw [ih _ (fun x hx => hcrit x (by simp [hx]))]
      simp

/-- C10, part 1 proof: strict severity-string bucketing of a single returned
    dict. -/
lemma c10_bucket_single (metas : List (String × RuleMeta)) (name : String)
    (f : RuleFn) (data : PyVal) (ctx : VContext) (d : Diag) (s : String)
    (hres : f data ctx = Except.ok (RuleReturn.dct d))
    (hsev : dget d "severity" = some (PyVal.str s)) :
    ((⟨[(name, f)], metas⟩ : RuleEngine).apply_rules data ctx []).errors
        = (if s = "error" then [d] else []) ∧
    ((⟨[(name, f)], metas⟩ : RuleEngine).apply_rules data ctx []).warnings
        = (if s = "warning" then [d] else []) ∧
    ((⟨[(name, f)], metas⟩ : RuleEngine).apply_rules data ctx []).info
        = (if s = "error" ∨ s = "warning" then [] else [d]) := by
  have hstep :
      applyRulesAux metas data ctx [] [(name, f)] ({} : Builder)
        = bucketDiag ((dictGet? metas name).getD defaultRuleMeta) {} d := by
    simp only [applyRulesAux, List.isEmpty_nil, Bool.not_true, Bool.false_and,
      Bool.false_eq_true, if_false]
    unfold ruleStep
    rw [hres]
  have hget : dgetD d "severity"
      (PyVal.str ((dictGet? metas name).getD defaultRuleMeta).severity)
        = PyVal.str s := by
    unfold dgetD; rw [hsev]; rfl
  have hbucket : bucketDiag ((dictGet? metas name).getD defaultRuleMeta) {} d
      = if s = "error" then { errors := [d] }
        else if s = "warning" then { warnings := [d] }
        else ({ info := [d] } : Builder) := by
    unfold bucketDiag
    dsimp only
    rw [hget]
    have he : pyEqStr (PyVal.str s) sevError = (s == "error") := rfl
    have hw : pyEqStr (PyVal.str s) sevWarning = (s == "warning") := rfl
    rw [he, hw]
    by_cases h1 : s = "error"
    · simp [h1]
    · by_cases h2 : s = "warning"
      · simp [h1, h2]
      · simp [h1, h2]
  have happly :
      (⟨[(name, f)], metas⟩ : RuleEngine).apply_rules data ctx []
        = (bucketDiag ((dictGet? metas name).getD defaultRuleMeta) {} d).build := by
    show (applyRulesAux metas data ctx [] [(name, f)] ({} : Builder)).build = _
    rw [hstep]
  rw [happly, hbucket]
  by_cases h1 : s = "error"
  · simp [h1, Builder.build]
  · by_cases h2 : s = "warning"
    · simp [h1, h2, Builder.build]
    · simp [h1, h2, Builder.build]

/-- C10, part 2 proof: an engine all of whose rules return only
    CRITICAL-severity diagnostic lists yields a valid result with empty errors
    and warnings and everything in info. -/
lemma c10_critical_to_info (metas : List (String × RuleMeta))
    (rules : List (String × RuleFn)) (data : PyVal) (ctx : VContext)
    (hcrit : ∀ p ∈ rules, ∃ l, p.2 data ctx = Except.ok (RuleReturn.lst l) ∧
      ∀ d ∈ l, dget d "severity" = some (PyVal.str "critical")) :
    ((⟨rules, metas⟩ : RuleEngine).apply_rules data ctx []).is_valid = true ∧
    ((⟨rules, metas⟩ : RuleEngine).apply_rules data ctx []).errors = [] ∧
    ((⟨rules, metas⟩ : RuleEngine).apply_rules data ctx []).warnings = [] ∧
    ((⟨rules, metas⟩ : RuleEngine).apply_rules data ctx []).info.length
        = totalRuleDiagCount rules data ctx := by
  have hmain : ∀ (rs : List (String × RuleFn)),
      (∀ p ∈ rs, ∃ l, p.2 data ctx = Except.ok (RuleReturn.lst l) ∧
        ∀ d ∈ l, dget d "severity" = some (PyVal.str "critical")) →
      (applyRulesAux metas data ctx [] rs ({} : Builder)).errors = [] ∧
      (applyRulesAux metas data ctx [] rs ({} : Builder)).warnings = [] ∧
      (applyRulesAux metas data ctx [] rs ({} : Builder)).info.length
          = totalRuleDiagCount rs data ctx := by
    intro rs
    induction rs with
    | nil => intro _; simp [applyRulesAux, totalRuleDiagCount]
    | cons p rest ih =>
        intro hall
        obtain ⟨name, f⟩ := p
        obtain ⟨l, hres₀, hl⟩ := hall (name, f) (by simp)
        have hres : f data ctx = Except.ok (RuleReturn.lst l) := hres₀
        have hstep : ruleStep data ctx name f
            ((dictGet? metas name).getD defaultRuleMeta) ({} : Builder)
              = ({ info := l } : Builder) := by
          unfold ruleStep
          rw [hres]
          dsimp only
          rw [foldlBucket_allCritical _ l {} hl]
          simp
        have hrest := ih (fun q hq => hall q (by simp [hq]))
        obtain ⟨haccE, haccW, haccI⟩ :=
          applyRulesAux_acc metas data ctx [] rest ({ info := l } : Builder)
        have hcount : totalRuleDiagCount ((name, f) :: rest) data ctx
            = l.length + totalRuleDiagCount rest data ctx := by
          unfold totalRuleDiagCount
          simp only [List.map_cons, List.sum_cons]
          rw [hres]
        simp only [applyRulesAux, List.isEmpty_nil, Bool.not_true, Bool.false_and,
          Bool.false_eq_true, if_false, hstep]
        refine ⟨?_, ?_, ?_⟩
        · rw [haccE, hrest.1]; rfl
        · rw [haccW, hrest.2.1]; rfl
        · rw [haccI, hcount, List.length_append, hrest.2.2]
  have h := hmain rules hcrit
  refine ⟨?_, h.1, h.2.1, h.2.2⟩
  show (applyRulesAux metas data ctx [] rules ({} : Builder)).errors.isEmpty = true
  rw [h.1]
  rfl

/-- C10: `apply_rules` buckets each diagnostic dict returned by a rule strictly
    by its severity string — exactly `"error"` goes to errors, exactly
    `"warning"` to warnings, and anything else (including `"critical"`) to
    info; consequently an engine whose rules produce only CRITICAL-severity
    diagnostics returns a result with `is_valid = True`, empty errors and
    warnings, and all the diagnostics in info. -/
theorem c10_severity_bucketing :
    (∀ (metas : List (String × RuleMeta)) (name : String) (f : RuleFn)
        (data : PyVal) (ctx : VContext) (d : Diag) (s : String),
      f data ctx = Except.ok (RuleReturn.dct d) →
      dget d "severity" = some (PyVal.str s) →
      ((⟨[(name, f)], metas⟩ : RuleEngine).apply_rules data ctx []).errors
          = (if s = "error" then [d] else []) ∧
      ((⟨[(name, f)], metas⟩ : RuleEngine).apply_rules data ctx []).warnings
          = (if s = "warning" then [d] else []) ∧
      ((⟨[(name, f)], metas⟩ : RuleEngine).apply_rules data ctx []).info
          = (if s = "error" ∨ s = "warning" then [] else [d])) ∧
    (∀ (metas : List (String × RuleMeta)) (rules : List (String × RuleFn))
        (data : PyVal) (ctx : VContext),
      (∀ p ∈ rules, ∃ l, p.2 data ctx = Except.ok (RuleReturn.lst l) ∧
        ∀ d ∈ l, dget d "severity" = some (PyVal.str "critical")) →
      ((⟨rules, metas⟩ : RuleEngine).apply_rules data ctx []).is_valid = true ∧
      ((⟨rules, metas⟩ : RuleEngine).apply_rules data ctx []).errors = [] ∧
      ((⟨rules, metas⟩ : RuleEngine).apply_rules data ctx []).warnings = [] ∧
      ((⟨rules, metas⟩ : RuleEngine).apply_rules data ctx []).info.length
          = totalRuleDiagCount rules data ctx) :=
  ⟨fun metas name f data ctx d s h1 h2 => c10_bucket_single metas name f data ctx d s h1 h2,
   fun metas rules data ctx h => c10_critical_to_info metas rules data ctx h⟩

/-- C10 witness: a one-rule engine returning a single CRITICAL
    `suspicious_sql_function` dict yields `is_valid = True` with the diagnostic
    counted in info, and the same dict routed to info by the bucketing part. -/
theorem c10_severity_bucketing_witness :
    ((⟨[("security", fun _ _ => Except.ok (RuleReturn.lst
        [[("type", PyVal.str "suspicious_sql_function"),
          ("severity", PyVal.str "critical")]]))], []⟩ : RuleEngine).apply_rules
        PyVal.none {} []).is_valid = true ∧
    ((⟨[("security", fun _ _ => Except.ok (RuleReturn.lst
        [[("type", PyVal.str "suspicious_sql_function"),
          ("severity", PyVal.str "critical")]]))], []⟩ : RuleEngine).apply_rules
        PyVal.none {} []).errors = [] ∧
    ((⟨[("security", fun _ _ => Except.ok (RuleReturn.lst
        [[("type", PyVal.str "suspicious_sql_function"),
          ("severity", PyVal.str "critical")]]))], []⟩ : RuleEngine).apply_rules
        PyVal.none {} []).info.length = 1 := by
  have h := c10_severity_bucketing.2 []
    [("security", fun _ _ => Except.ok (RuleReturn.lst
      [[("type", PyVal.str "suspicious_sql_function"),
        ("severity", PyVal.str "critical")]]))]
    PyVal.none {}
    (by
      intro p hp
      simp only [List.mem_singleton] at hp
      subst hp
      exact ⟨_, rfl, by intro d hd; simp only [List.mem_singleton] at hd; subst hd; rfl⟩)
  exact ⟨h.1, h.2.1, h.2.2.2⟩

/-! ### Diagnostic-list and dict helper lemmas -/
lemma hasDiagType_append (l₁ l₂ : List Diag) (t : String) :
    hasDiagType (l₁ ++ l₂) t = (hasDiagType l₁ t || hasDiagType l₂ t) := by
  simp [hasDiagType, List.any_append]

lemma hasDiagType_cons (d : Diag) (l : List Diag) (t : String) :
    hasDiagType (d :: l) t = (pyEqStr (dgetD d "type" .none) t || hasDiagType l t) := rfl

lemma isNoneV_iff (v : PyVal) : isNoneV v = true ↔ v = PyVal.none := by
  cases v <;> simp [isNoneV]

lemma dictGet?_dictSet_self {α : Type} (l : List (String × α)) (k : String) (v : α) :
    dictGet? (dictSet l k v) k = some v := by
  induction l with
  | nil => simp [dictSet, dictGet?]
  | cons kv rest ih =>
      obtain ⟨k', v'⟩ := kv
      by_cases h : k' = k
      · simp [dictSet, dictGet?, h]
      · simp [dictSet, dictGet?, h, ih]

lemma dictGet?_cons {α : Type} (k' : String) (v' : α) (rest : List (String × α))
    (k : String) :
    dictGet? ((k', v') :: rest) k = if k' = k then some v' else dictGet? rest k := rfl

lemma dictGet?_append_right {α : Type} (l : List (String × α)) (k : String) (v : α)
    (h : dictGet? l k = Option.none) :
    dictGet? (l ++ [(k, v)]) k = some v := by
  induction l with
  | nil => simp [dictGet?]
  | cons kv rest ih =>
      obtain ⟨k', v'⟩ := kv
      rw [dictGet?_cons] at h
      by_cases hk : k' = k
      · rw [if_pos hk] at h
        exact absurd h (by simp)
      · rw [if_neg hk] at h
        rw [List.cons_append, dictGet?_cons, if_neg hk]
        exact ih h

/-! ### Claim C6 -/
/-- Any diagnostic produced by the unknown-parameter loop has type
    `unknown_parameter`. -/
lemma unknownParamErrs_type (spec : OperationSpec)
    (params : List (String × PyVal)) (path t : String)
    (h : ("unknown_parameter" == t) = false) :
    hasDiagType (spec.unknownParamErrs params path) t = false := by
  induction params with
  | nil => rfl
  | cons kv rest ih =>
      unfold OperationSpec.unknownParamErrs at ih ⊢
      rw [List.filterMap_cons]
      by_cases hc : ((spec.parameters.map (·.name)).contains kv.1) = true
      · rw [if_pos hc]
        exact ih
      · rw [if_neg hc]
        rw [hasDiagType_cons]
        rw [show pyEqStr (dgetD
          [("type", PyVal.str "unknown_parameter"),
           ("message", PyVal.str (spec.name ++ ": unknown parameter \"" ++ kv.1 ++ "\"")),
           ("path", PyVal.str path),
           ("operation", PyVal.str spec.name),
           ("parameter", PyVal.str kv.1),
           ("valid_parameters",
             PyVal.list ((listDedup (spec.parameters.map (·.name))).map PyVal.str))]
          "type" .none) t = ("unknown_parameter" == t) from rfl]
        rw [h, Bool.false_or]
        exact ih

/-- C6: `validate_operation("divide", {"factor": 0}, path)` produces a
    `division_by_zero` diagnostic; `validate_operation("divide",
    {"factor": "other_column"}, path)` produces none — the check fires exactly
    for a literal numeric zero divisor and is skipped for string
    (column-reference) divisors; and an exception raised inside a parameter's
    custom validator is converted by `ParameterSpec.validate` into a
    `parameter_validation_error` diagnostic instead of propagating (whenever
    control reaches the validator, i.e. no early `return` fired). -/
theorem c6_divide_by_zero_validation :
    hasDiagType (OPERATION_REGISTRY.validate_operation "divide"
        [("factor", PyVal.int 0)] "path").1 "division_by_zero" = true ∧
    hasDiagType (OPERATION_REGISTRY.validate_operation "divide"
        [("factor", PyVal.str "other_column")] "path").1 "division_by_zero" = false ∧
    (∀ (p : ParameterSpec) (f : PyVal → String → String → Except String (List Diag))
        (value : PyVal) (path msg : String),
      p.validator = some f →
      f value path p.name = Except.error msg →
      p.validateEarly value path = Option.none →
      hasDiagType (p.validate value path) "parameter_validation_error" = true) := by
  refine ⟨by decide, by decide, ?_⟩
  intro p f value path msg hv hf hearly
  unfold ParameterSpec.validate
  rw [hearly]
  unfold ParameterSpec.validateRest
  dsimp only
  rw [hv]
  dsimp only
  rw [hf]
  rw [hasDiagType_append, hasDiagType_append]
  simp [hasDiagType, dgetD, dget, pyEqStr]

/-- C6 witness for the custom-validator part: a STRING parameter whose
    validator raises `"boom"` on a string value yields the
    `parameter_validation_error` diagnostic. -/
theorem c6_divide_by_zero_validation_witness :
    hasDiagType (ParameterSpec.validate
      { name := "x", param_type := .STRING,
        validator := some (fun _ _ _ => Except.error "boom") }
      (PyVal.str "a") "p") "parameter_validation_error" = true :=
  c6_divide_by_zero_validation.2.2 _ _ (PyVal.str "a") "p" "boom" rfl rfl rfl

/-! ### Claim C7 -/
/-- Validation of one optional COLUMN_REFERENCE clamp parameter (no bounds,
    no choices, no custom validator) can only produce `invalid_parameter_type`
    diagnostics. -/
lemma clampParam_validate_type (nm desc : String) (v : PyVal) (path t : String)
    (h : ("invalid_parameter_type" == t) = false) :
    hasDiagType (ParameterSpec.validate
      { name := nm, param_type := .COLUMN_REFERENCE, description := desc,
        allow_column_references := true } v path) t = false := by
  cases v <;>
    simp [ParameterSpec.validate, ParameterSpec.validateEarly,
      ParameterSpec.validateRest, hasDiagType, dgetD, dget, pyEqStr, h,
      numericParamTypes, isStrOrNum, isStr, isNum, isNoneV]

/-- `clamp`'s parameter validation can only produce `unknown_parameter` or
    `invalid_parameter_type` diagnostics — never the two clamp-specific
    types. -/
lemma clamp_validate_parameters_type (params : List (String × PyVal)) (path t : String)
    (h1 : ("unknown_parameter" == t) = false)
    (h2 : ("invalid_parameter_type" == t) = false) :
    hasDiagType (clampSpec.validate_parameters params path) t = false := by
  unfold OperationSpec.validate_parameters
  rw [hasDiagType_append, unknownParamErrs_type _ _ _ _ h1, Bool.false_or]
  have hknown : OperationSpec.knownParamErrs clampSpec params path
      = ParameterSpec.validate
          { name := "min_value", param_type := .COLUMN_REFERENCE,
            description := "Minimum value (can be number or column reference)",
            allow_column_references := true }
          ((dictGet? params "min_value").getD .none) path
        ++ (ParameterSpec.validate
          { name := "max_value", param_type := .COLUMN_REFERENCE,
            description := "Maximum value (can be number or column reference)",
            allow_column_references := true }
          ((dictGet? params "max_value").getD .none) path ++ []) := rfl
  rw [hknown, hasDiagType_append, hasDiagType_append]
  rw [clampParam_validate_type _ _ _ _ _ h2, clampParam_validate_type _ _ _ _ _ h2]
  rfl

/-- C7: `validate_operation("clamp", params, path)` yields
    `missing_clamp_bounds` exactly when both `min_value` and `max_value` are
    absent (or `None`), and `invalid_clamp_range` exactly when both are numeric
    with `min_value > max_value`; in particular `{}` yields
    `missing_clamp_bounds` and `{"min_value": 10, "max_value": 5}` yields
    `invalid_clamp_range`. -/
theorem c7_clamp_bounds (params : List (String × PyVal)) (path : String) :
    (hasDiagType (OPERATION_REGISTRY.validate_operation "clamp" params path).1
        "missing_clamp_bounds" = true ↔
      ((dictGet? params "min_value").getD .none = PyVal.none ∧
       (dictGet? params "max_value").getD .none = PyVal.none)) ∧
    (hasDiagType (OPERATION_REGISTRY.validate_operation "clamp" params path).1
        "invalid_clamp_range" = true ↔
      (isNum ((dictGet? params "min_value").getD .none) = true ∧
       isNum ((dictGet? params "max_value").getD .none) = true ∧
       toRat ((dictGet? params "min_value").getD .none)
         > toRat ((dictGet? params "max_value").getD .none))) := by
  have hred : (OPERATION_REGISTRY.validate_operation "clamp" params path).1
      = clampSpec.validate_parameters params path ++ clampSpecialErrors params path := rfl
  have hmiss := clamp_validate_parameters_type params path "missing_clamp_bounds"
    (by decide) (by decide)
  have hrange := clamp_validate_parameters_type params path "invalid_clamp_range"
    (by decide) (by decide)
  constructor
  · rw [hred, hasDiagType_append, hmiss, Bool.false_or]
    unfold clampSpecialErrors
    dsimp only
    generalize (dictGet? params "min_value").getD PyVal.none = mv
    generalize (dictGet? params "max_value").getD PyVal.none = Mv
    by_cases hmn : mv = PyVal.none
    · by_cases hMn : Mv = PyVal.none
      · subst hmn; subst hMn
        simp [hasDiagType, dgetD, dget, pyEqStr, isNoneV]
      · have hm : isNoneV Mv = false := by
          rw [Bool.eq_false_iff]
          intro hcontra
          exact hMn ((isNoneV_iff Mv).mp hcontra)
        subst hmn
        rw [show isNoneV PyVal.none = true from rfl]
        simp only [hm, Bool.and_false, Bool.true_and, Bool.false_eq_true, if_false]
        constructor
        · intro hcontra
          split at hcontra <;>
            simp [hasDiagType, dgetD, dget, pyEqStr] at hcontra
        · intro ⟨_, hc⟩; exact absurd hc hMn
    · have hm : isNoneV mv = false := by
        rw [Bool.eq_false_iff]
        intro hcontra
        exact hmn ((isNoneV_iff mv).mp hcontra)
      simp only [hm, Bool.false_and, Bool.false_eq_true, if_false]
      constructor
      · intro hcontra
        split at hcontra <;>
          simp [hasDiagType, dgetD, dget, pyEqStr] at hcontra
      · intro ⟨hc, _⟩; exact absurd hc hmn
  · rw [hred, hasDiagType_append, hrange, Bool.false_or]
    unfold clampSpecialErrors
    dsimp only
    generalize (dictGet? params "min_value").getD PyVal.none = mv
    generalize (dictGet? params "max_value").getD PyVal.none = Mv
    by_cases hcond1 : (isNoneV mv && isNoneV Mv) = true
    · rw [if_pos hcond1]
      have hmn : mv = PyVal.none :=
        (isNoneV_iff mv).mp (Bool.and_elim_left hcond1)
      constructor
      · intro hcontra
        simp [hasDiagType, dgetD, dget, pyEqStr] at hcontra
      · intro ⟨hnum, _⟩
        rw [hmn] at hnum
        simp [isNum] at hnum
    · rw [if_neg hcond1]
      by_cases hcond2 : (isNum mv && isNum Mv && decide (toRat mv > toRat Mv)) = true
      · rw [if_pos hcond2]
        simp only [Bool.and_assoc, Bool.and_eq_true, decide_eq_true_eq] at hcond2
        constructor
        · intro _; exact ⟨hcond2.1, hcond2.2.1, hcond2.2.2⟩
        · intro _
          simp [hasDiagType, dgetD, dget, pyEqStr]
      · rw [if_neg hcond2]
        constructor
        · intro hcontra; exact absurd hcontra (by simp [hasDiagType])
        · intro ⟨ha, hb, hc⟩
          exact absurd (by simp [Bool.and_assoc, ha, hb, hc] :
            (isNum mv && isNum Mv && decide (toRat mv > toRat Mv)) = true) hcond2

/-! ### Claim C9 -/
/-- C9 counterexample: after `get_operation("divide")` has been called once,
    re-registering `"divide"` with a modified spec updates the `operations`
    dict, but a subsequent `get_operation("divide")` still returns the OLD spec
    from the `lru_cache` — contradicting the claim that `get_operation` resolves
    to the new spec "regardless of lookups performed before the
    re-registration". -/
theorem c9_counterexample :
    ((((OPERATION_REGISTRY.get_operation "divide").2).register_operation
        { divideSpec with description := "changed" }).get_operation "divide").1.map
        OperationSpec.description = some "Divide the number by a factor" ∧
    (dictGet? ((((OPERATION_REGISTRY.get_operation "divide").2).register_operation
        { divideSpec with description := "changed" }).operations) "divide").map
        OperationSpec.description = some "changed" ∧
    ("Divide the number by a factor" : String) ≠ "changed" :=
  ⟨rfl, rfl, by decide⟩

/-- C9 (amended): `register_operation(s)` overwrites `operations[s.name]` with
    `s` and appends `s.name` to the category index for `s.category`; a
    subsequent `get_operation(s.name)` returns `s` provided the name has no
    earlier cached lookup (the `lru_cache` on `get_operation_cached` is not
    invalidated by re-registration, so a lookup performed before the
    re-registration makes `get_operation` return the stale spec). -/
theorem c9_register_overwrite (r : OperationRegistry) (s : OperationSpec) :
    dictGet? (r.register_operation s).operations s.name = some s ∧
    s.name ∈ ((dictGet? (r.register_operation s).categories s.category).getD []) ∧
    (dictGet? (r.register_operation s).cache s.name = Option.none →
      ((r.register_operation s).get_operation s.name).1 = some s) := by
  refine ⟨dictGet?_dictSet_self _ _ _, ?_, ?_⟩
  · unfold OperationRegistry.register_operation
    dsimp only
    cases hcat : dictGet? r.categories s.category with
    | none =>
        rw [dictGet?_append_right _ _ _ hcat]
        simp
    | some l0 =>
        rw [dictGet?_dictSet_self]
        simp
  · intro hcache
    unfold OperationRegistry.get_operation OperationRegistry.get_operation_cached
    rw [hcache]
    exact dictGet?_dictSet_self _ _ _

/-- C9 witness: registering a brand-new operation (never looked up, so not in
    the cache) makes `get_operation` return it. -/
theorem c9_register_overwrite_witness :
    ((OPERATION_REGISTRY.register_operation
      { name := "test_operation", category := "test", description := "t",
        parameters := [] }).get_operation "test_operation").1
      = some { name := "test_operation", category := "test",
               description := "t", parameters := [] } :=
  (c9_register_overwrite OPERATION_REGISTRY _).2.2 rfl

/-! ### Claim C2 -/
/-- C2 (code-bug evidence): the scan is NOT boundary-aware. The entry
    `"subscription_id as sub_id"` DOES produce a CRITICAL
    `suspicious_sql_function` diagnostic, because `"script"` is a substring of
    `"subscription_id"` — the claim (and
    `test_security.py::test_column_names_with_suspicious_substrings`) requires
    zero such diagnostics there. The second conjunct shows the claim's other
    half does hold: `"id, exec('x') as r"` produces at least one. -/
theorem c2_suspicious_scan_not_boundary_aware :
    hasDiagTypeSev (suspiciousFunctionScan "subscription_id as sub_id")
      "suspicious_sql_function" "critical" = true ∧
    hasDiagTypeSev (suspiciousFunctionScan "id, exec('x') as r")
      "suspicious_sql_function" "critical" = true := by
  constructor <;> decide

/-- C1 counterexample: the claimed invariant "`r.is_valid` iff the count of
    ERROR/CRITICAL diagnostics in `r.errors` is zero" fails for the result
    built after `add_error(..., severity="warning")`: the errors list holds one
    WARNING-severity diagnostic, so the ERROR/CRITICAL count is zero, yet
    `build()` sets `is_valid = (len(errors) == 0) = False`. -/
theorem c1_counterexample :
    c1Builder.build.is_valid = false ∧ countErrCrit c1Builder.build.errors = 0 := by
  constructor <;> rfl

/-- C1 (amended): `ValidationResultBuilder.build()` freezes a result whose
    `is_valid` equals `len(errors) == 0`; the ERROR/CRITICAL-count formulation
    of the invariant holds exactly for those builder states in which every
    diagnostic of the errors list carries ERROR or CRITICAL severity (it fails
    as soon as a diagnostic with another or missing severity is placed in the
    errors list). -/
theorem c1_build_validity (b : Builder) :
    b.build.is_valid = b.errors.isEmpty ∧
      (allErrCrit b.errors = true →
        (b.build.is_valid = true ↔ countErrCrit b.build.errors = 0)) := by
  refine ⟨rfl, fun hall => ?_⟩
  show b.errors.isEmpty = true ↔ countErrCrit b.errors = 0
  rw [List.isEmpty_iff]
  unfold countErrCrit
  unfold allErrCrit at hall
  rw [List.all_eq_true] at hall
  constructor
  · intro h; rw [h]; simp
  · intro h
    have hlen : b.errors.length = 0 := by
      have := List.countP_eq_length (l := b.errors)
        (p := fun d => pyEqStr (dgetD d "severity" .none) sevError ||
          pyEqStr (dgetD d "severity" .none) sevCritical)
      rw [h.symm]
      exact (this.mpr (fun a ha => hall a ha)).symm
    exact List.length_eq_zero.mp hlen

/-- C1 witness: the amended theorem applied to a builder holding one
    CRITICAL-severity error diagnostic. -/
theorem c1_build_validity_witness :
    (Builder.add_error {} "validation_exception" "boom" Option.none Option.none
        sevCritical []).build.is_valid = true ↔
      countErrCrit (Builder.add_error {} "validation_exception" "boom" Option.none
        Option.none sevCritical []).build.errors = 0 :=
  (c1_build_validity _).2 (by decide)

/-! ### Claim C5 -/
/-- C5: `a.merge(b)` ANDs validity and concatenates the three diagnostic lists
    in `a`-then-`b` order, with no deduplication. -/
theorem c5_merge_spec (a b : VResult) :
    (a.merge b).is_valid = (a.is_valid && b.is_valid) ∧
      (a.merge b).errors = a.errors ++ b.errors ∧
      (a.merge b).warnings = a.warnings ++ b.warnings ∧
      (a.merge b).info = a.info ++ b.info :=
  ⟨rfl, rfl, rfl, rfl⟩

/-! ### Claim C3 theorems -/
example : sourceColAlias "id as rid" = some "rid" := by decide

example : hasDiagTypeSev (validateColumnConsistencyRule
  [("mapping_name", .str "m"),
   ("source_columns_interested", PyVal.list [.str "id as rid"]),
   ("column_transformations", PyVal.list [.dict [("source_alias", .str "missing")]])] {})
  "orphaned_transformation_columns" "error" = true := by decide

example : hasDiagType (validateColumnConsistencyRule
  [("mapping_name", .str "m"),
   ("source_columns_interested", PyVal.list []),
   ("column_transformations", PyVal.list [.dict [("source_alias", .str "x")]])] {})
  "orphaned_transformation_columns" = false := by decide

lemma hasDiagTypeSev_append (l₁ l₂ : List Diag) (t sev : String) :
    hasDiagTypeSev (l₁ ++ l₂) t sev
      = (hasDiagTypeSev l₁ t sev || hasDiagTypeSev l₂ t sev) := by
  simp [hasDiagTypeSev, List.any_append]

lemma setAdd_contains_self (s : List String) (x : String) :
    (setAdd s x).contains x = true := by
  unfold setAdd
  split
  · assumption
  · simp

lemma setAdd_contains_mono (s : List String) (x y : String)
    (h : s.contains y = true) : (setAdd s x).contains y = true := by
  unfold setAdd
  split
  · exact h
  · rw [List.elem_iff] at h ⊢
    exact List.mem_append_left _ h

lemma transStep_contains_mono (acc : List String) (t : PyVal) (y : String)
    (h : acc.contains y = true) : (transStep acc t).contains y = true := by
  unfold transStep
  split
  · split
    · exact setAdd_contains_mono _ _ _ h
    · exact h
  · exact h

lemma foldl_transStep_contains_mono :
    ∀ (l : List PyVal) (acc : List String) (y : String),
      acc.contains y = true → (l.foldl transStep acc).contains y = true := by
  intro l
  induction l with
  | nil => intro acc y h; exact h
  | cons t ts ih =>
      intro acc y h
      exact ih _ _ (transStep_contains_mono _ _ _ h)

theorem c3_orphaned_transformation_error (mapping : Diag) (ctx : VContext)
    (d0 : List (String × PyVal)) (rest : List PyVal) (a0 : PyVal)
    (h1 : dget mapping "column_transformations"
      = some (PyVal.list (PyVal.dict d0 :: rest)))
    (h2 : dget d0 "source_alias" = some a0)
    (h3 : (sourceColumnsSet mapping).contains (pyStr a0) = false)
    (h4 : sourceColumnsSet mapping ≠ []) :
    hasDiagTypeSev (validateColumnConsistencyRule mapping ctx)
      "orphaned_transformation_columns" "error" = true := by
  have htrans : (transformationColumnsSet mapping).contains (pyStr a0) = true := by
    unfold transformationColumnsSet
    rw [h1]
    simp only [List.foldl_cons]
    apply foldl_transStep_contains_mono
    unfold transStep
    dsimp only
    rw [h2]
    exact setAdd_contains_self _ _
  have horph : (setDiff (transformationColumnsSet mapping)
      (sourceColumnsSet mapping)).contains (pyStr a0) = true := by
    unfold setDiff
    rw [List.elem_iff] at htrans ⊢
    rw [List.mem_filter]
    exact ⟨htrans, by rw [h3]; rfl⟩
  have horphne : (setDiff (transformationColumnsSet mapping)
      (sourceColumnsSet mapping)).isEmpty = false := by
    cases hd : setDiff (transformationColumnsSet mapping) (sourceColumnsSet mapping) with
    | nil => rw [hd] at horph; exact absurd horph (by simp)
    | cons a l => rfl
  have hsrc : (sourceColumnsSet mapping).isEmpty = false := by
    cases hd : sourceColumnsSet mapping with
    | nil => exact absurd hd h4
    | cons a l => rfl
  unfold validateColumnConsistencyRule
  dsimp only
  rw [hasDiagTypeSev_append, hasDiagTypeSev_append]
  rw [horphne, hsrc]
  simp only [Bool.not_false, Bool.and_self, if_true]
  rw [Bool.or_eq_true]
  refine Or.inr ?_
  rfl

theorem c3_counterexample :
    hasDiagType (validateColumnConsistencyRule
      [("mapping_name", PyVal.str "m"),
       ("source_columns_interested", PyVal.list []),
       ("column_transformations",
         PyVal.list [PyVal.dict [("source_alias", PyVal.str "x")]])] {})
      "orphaned_transformation_columns" = false := by decide

theorem c3_witness :
    hasDiagTypeSev (validateColumnConsistencyRule
      [("mapping_name", PyVal.str "m"),
       ("source_columns_interested", PyVal.list [PyVal.str "id as rid"]),
       ("column_transformations",
         PyVal.list [PyVal.dict [("source_alias", PyVal.str "missing")]])] {})
      "orphaned_transformation_columns" "error" = true :=
  c3_orphaned_transformation_error _ _ _ _ _ rfl rfl (by decide) (by decide)

lemma countOccBy_pos (p : List Char → Bool) :
    ∀ (s t : List Char), t <:+ s → p t = true → 1 ≤ countOccBy p s := by
  intro s
  induction s with
  | nil =>
      intro t ht hp
      rw [List.suffix_nil.mp ht] at hp
      simp [countOccBy, hp]
  | cons c cs ih =>
      intro t ht hp
      rcases List.suffix_cons_iff.mp ht with h | h
      · subst h
        simp [countOccBy, hp]
      · have := ih t h hp
        unfold countOccBy
        omega

lemma countOccBy_unique (p : List Char → Bool) :
    ∀ (s t₁ t₂ : List Char), countOccBy p s = 1 → t₁ <:+ s → t₂ <:+ s →
      p t₁ = true → p t₂ = true → t₁ = t₂ := by
  intro s
  induction s with
  | nil =>
      intro t₁ t₂ _ h1 h2 _ _
      rw [List.suffix_nil.mp h1, List.suffix_nil.mp h2]
  | cons c cs ih =>
      intro t₁ t₂ hc h1 h2 hp1 hp2
      by_cases hhead : p (c :: cs) = true
      · have hcs : countOccBy p cs = 0 := by
          unfold countOccBy at hc
          rw [if_pos hhead] at hc
          omega
        have hone : ∀ t, t <:+ cs → p t = true → False := by
          intro t ht hp
          have := countOccBy_pos p cs t ht hp
          omega
        rcases List.suffix_cons_iff.mp h1 with e1 | e1
        · rcases List.suffix_cons_iff.mp h2 with e2 | e2
          · rw [e1, e2]
          · exact absurd hp2 (fun hp2 => hone t₂ e2 hp2)
        · exact absurd hp1 (fun hp1 => hone t₁ e1 hp1)
      · have hp1' : t₁ <:+ cs := by
          rcases List.suffix_cons_iff.mp h1 with e1 | e1
          · rw [e1] at hp1; exact absurd hp1 hhead
          · exact e1
        have hp2' : t₂ <:+ cs := by
          rcases List.suffix_cons_iff.mp h2 with e2 | e2
          · rw [e2] at hp2; exact absurd hp2 hhead
          · exact e2
        have hcs : countOccBy p cs = 1 := by
          unfold countOccBy at hc
          rw [if_neg hhead] at hc
          omega
        exact ih t₁ t₂ hcs hp1' hp2' hp1 hp2

lemma noDoubleWs_tail (c : Char) (cs : List Char)
    (h : noDoubleWs (c :: cs) = true) : noDoubleWs cs = true := by
  cases cs with
  | nil => rfl
  | cons d ds =>
      unfold noDoubleWs at h
      simp only [Bool.and_eq_true] at h
      exact h.2

lemma noDoubleWs_suffix :
    ∀ (s t : List Char), noDoubleWs s = true → t <:+ s → noDoubleWs t = true := by
  intro s
  induction s with
  | nil =>
      intro t _ ht
      rw [List.suffix_nil.mp ht]
      rfl
  | cons c cs ih =>
      intro t hnd ht
      rcases List.suffix_cons_iff.mp ht with h | h
      · rw [h]; exact hnd
      · exact ih t (noDoubleWs_tail c cs hnd) h

lemma noDoubleWs_head_pair (a b : Char) (l : List Char)
    (h : noDoubleWs (a :: b :: l) = true) :
    ¬(pyIsSpace a = true ∧ pyIsSpace b = true) := by
  unfold noDoubleWs at h
  intro hab
  obtain ⟨ha, hb⟩ := hab
  rw [ha, hb] at h
  simp at h

/-! ### C8: soundness of the shared parsers -/
lemma dropWhile_head_false (p : Char → Bool) :
    ∀ (l : List Char) (c : Char) (t : List Char),
      l.dropWhile p = c :: t → p c = false := by
  intro l
  induction l with
  | nil => intro c t h; simp [List.dropWhile] at h
  | cons a as ih =>
      intro c t h
      rw [List.dropWhile_cons] at h
      by_cases hp : p a = true
      · rw [if_pos hp] at h
        exact ih c t h
      · rw [if_neg hp] at h
        injection h with h1 _
        subst h1
        exact Bool.eq_false_iff.mpr hp

lemma parseWs1_sound (s r : List Char) (h : parseWs1 s = some r) :
    ∃ w, s = w ++ r ∧ w ≠ [] ∧ (∀ c ∈ w, pyIsSpace c = true) := by
  cases s with
  | nil => simp [parseWs1] at h
  | cons c cs =>
      unfold parseWs1 at h
      dsimp only at h
      by_cases hc : pyIsSpace c = true
      · rw [if_pos hc] at h
        injection h with h
        refine ⟨c :: cs.takeWhile pyIsSpace, ?_, by simp, ?_⟩
        · rw [← h, List.cons_append, List.takeWhile_append_dropWhile]
        · intro x hx
          rcases List.mem_cons.mp hx with h1 | h1
          · subst h1; exact hc
          · exact List.mem_takeWhile_imp h1
      · rw [if_neg hc] at h
        cases h

lemma parseCI_sound : ∀ (lit s r : List Char), parseCI lit s = some r →
    ∃ w, s = w ++ r ∧ w.map charLower = lit.map charLower := by
  intro lit
  induction lit with
  | nil =>
      intro s r h
      unfold parseCI at h
      injection h with h
      exact ⟨[], by simp [h], by simp⟩
  | cons l ls ih =>
      intro s r h
      cases s with
      | nil => simp [parseCI] at h
      | cons c cs =>
          unfold parseCI at h
          by_cases hc : (charLower c == charLower l) = true
          · rw [if_pos hc] at h
            obtain ⟨w, hw1, hw2⟩ := ih cs r h
            exact ⟨c :: w, by simp [hw1], by simp [hw2, beq_iff_eq.mp hc]⟩
          · rw [if_neg hc] at h
            cases h

lemma parseCI_complete : ∀ (lit w r : List Char),
    w.map charLower = lit.map charLower → parseCI lit (w ++ r) = some r := by
  intro lit
  induction lit with
  | nil =>
      intro w r hw
      have hwnil : w = [] := by
        cases w with
        | nil => rfl
        | cons a as => simp at hw
      subst hwnil
      rfl
  | cons l ls ih =>
      intro w r hw
      cases w with
      | nil => simp at hw
      | cons c cs =>
          simp only [List.map_cons, List.cons.injEq] at hw
          show parseCI (l :: ls) (c :: (cs ++ r)) = some r
          unfold parseCI
          rw [if_pos (beq_iff_eq.mpr hw.1)]
          exact ih cs r hw.2

lemma parseIdent_sound (s g rest : List Char) (h : parseIdent s = some (g, rest)) :
    s = g ++ rest ∧ listIsIdent g = true ∧
      (∀ c t, rest = c :: t → isIdentChar c = false) := by
  cases s with
  | nil => simp [parseIdent] at h
  | cons c cs =>
      unfold parseIdent at h
      dsimp only at h
      by_cases hc : isIdentStart c = true
      · rw [if_pos hc] at h
        injection h with h
        injection h with h1 h2
        refine ⟨?_, ?_, ?_⟩
        · rw [← h1, ← h2, List.cons_append, List.takeWhile_append_dropWhile]
        · rw [← h1]
          unfold listIsIdent
          dsimp only
          rw [hc, Bool.true_and, List.all_eq_true]
          intro x hx
          exact List.mem_takeWhile_imp hx
        · intro x t hxt
          rw [← h2] at hxt
          exact dropWhile_head_false isIdentChar cs x t hxt
      · rw [if_neg hc] at h
        cases h

/-! ### C8: whitespace and case-folding facts -/
lemma ws_charLower_self (c : Char) (h : pyIsSpace c = true) : charLower c = c := by
  unfold pyIsSpace at h
  simp only [Bool.or_eq_true, beq_iff_eq] at h
  rcases h with ((((h | h) | h) | h) | h) | h <;> subst h <;> decide

lemma ws_not_identStart (c : Char) (h : pyIsSpace c = true) :
    isIdentStart c = false := by
  unfold pyIsSpace at h
  simp only [Bool.or_eq_true, beq_iff_eq] at h
  rcases h with ((((h | h) | h) | h) | h) | h <;> subst h <;> decide

lemma identStart_not_ws (c : Char) (h : isIdentStart c = true) :
    pyIsSpace c = false := by
  cases hws : pyIsSpace c
  · rfl
  · rw [ws_not_identStart c hws] at h
    cases h

lemma lower_letter_not_ws (c x : Char) (h : charLower c = x)
    (hx : pyIsSpace x = false) : pyIsSpace c = false := by
  cases hws : pyIsSpace c
  · rfl
  · have h2 := ws_charLower_self c hws
    rw [h2] at h
    rw [h] at hws
    rw [hws] at hx
    cases hx

/-! ### C8: the shared `\s+as\s+(ident)` tail, on normalized text -/
lemma map_eq_pair {f : Char → Char} {w : List Char} {a b : Char}
    (h : w.map f = [a, b]) : ∃ x y, w = [x, y] ∧ f x = a ∧ f y = b := by
  cases w with
  | nil => simp at h
  | cons x w' =>
      cases w' with
      | nil => simp at h
      | cons y w'' =>
          cases w'' with
          | nil =>
              simp only [List.map_cons, List.map_nil, List.cons.injEq, and_true] at h
              exact ⟨x, y, rfl, h.1, h.2⟩
          | cons z w3 => simp at h

lemma parseAsGroup_sound (t g rest : List Char)
    (h : parseAsGroup t = some (g, rest)) :
    ∃ w1 x1 x2 w2,
      t = w1 ++ x1 :: x2 :: (w2 ++ g ++ rest)
      ∧ w1 ≠ [] ∧ (∀ c ∈ w1, pyIsSpace c = true)
      ∧ charLower x1 = 'a' ∧ charLower x2 = 's'
      ∧ w2 ≠ [] ∧ (∀ c ∈ w2, pyIsSpace c = true)
      ∧ listIsIdent g = true
      ∧ (∀ c t', rest = c :: t' → isIdentChar c = false) := by
  unfold parseAsGroup at h
  obtain ⟨s1, hp1, h⟩ := Option.bind_eq_some.mp h
  obtain ⟨s2, hp2, h⟩ := Option.bind_eq_some.mp h
  obtain ⟨s3, hp3, h⟩ := Option.bind_eq_some.mp h
  obtain ⟨w1, ht1, hw1ne, hw1ws⟩ := parseWs1_sound t s1 hp1
  obtain ⟨was, hs1, hmap⟩ := parseCI_sound ['a', 's'] s1 s2 hp2
  have hmap' : was.map charLower = ['a', 's'] := by
    rw [hmap]; decide
  obtain ⟨x1, x2, hwas, hx1, hx2⟩ := map_eq_pair hmap'
  obtain ⟨w2, hs2, hw2ne, hw2ws⟩ := parseWs1_sound s2 s3 hp3
  obtain ⟨hs3, hgid, hmax⟩ := parseIdent_sound s3 g rest h
  refine ⟨w1, x1, x2, w2, ?_, hw1ne, hw1ws, hx1, hx2, hw2ne, hw2ws, hgid, hmax⟩
  rw [ht1, hs1, hwas, hs2, hs3]
  simp [List.append_assoc]

lemma ws_run_singleton (w l : List Char) (hnd : noDoubleWs (w ++ l) = true)
    (hne : w ≠ []) (hws : ∀ c ∈ w, pyIsSpace c = true) :
    ∃ c, w = [c] ∧ pyIsSpace c = true := by
  cases w with
  | nil => exact absurd rfl hne
  | cons a w' =>
      cases w' with
      | nil => exact ⟨a, rfl, hws a (by simp)⟩
      | cons b w'' =>
          exfalso
          have hnd2 : noDoubleWs (a :: b :: (w'' ++ l)) = true := by
            simpa using hnd
          exact noDoubleWs_head_pair a b _ hnd2 ⟨hws a (by simp), hws b (by simp)⟩

lemma parseAsGroup_normalized (t g rest : List Char)
    (hnd : noDoubleWs t = true) (h : parseAsGroup t = some (g, rest)) :
    ∃ c1 x1 x2 c4, t = c1 :: x1 :: x2 :: c4 :: (g ++ rest)
      ∧ isAsOccAt t = true ∧ listIsIdent g = true
      ∧ (∀ c t', rest = c :: t' → isIdentChar c = false) := by
  obtain ⟨w1, x1, x2, w2, ht, hw1ne, hw1ws, hx1, hx2, hw2ne, hw2ws, hgid, hmax⟩ :=
    parseAsGroup_sound t g rest h
  obtain ⟨c1, hw1, hc1⟩ := ws_run_singleton w1 (x1 :: x2 :: (w2 ++ g ++ rest))
    (by rw [← ht]; exact hnd) hw1ne hw1ws
  have hsuffix : (w2 ++ g ++ rest) <:+ t := by
    rw [ht, hw1]
    exact ⟨[c1, x1, x2], by simp⟩
  obtain ⟨c4, hw2, hc4⟩ := ws_run_singleton w2 (g ++ rest)
    (by
      have hnd3 := noDoubleWs_suffix t (w2 ++ g ++ rest) hnd hsuffix
      simpa [List.append_assoc] using hnd3)
    hw2ne hw2ws
  have hteq : t = c1 :: x1 :: x2 :: c4 :: (g ++ rest) := by
    rw [ht, hw1, hw2]; simp
  refine ⟨c1, x1, x2, c4, hteq, ?_, hgid, hmax⟩
  rw [hteq]
  unfold isAsOccAt
  dsimp only
  rw [hc1, hc4, hx1, hx2]
  decide

lemma listIsIdent_mem (w : List Char) (hw : listIsIdent w = true) :
    ∀ c ∈ w, isIdentChar c = true := by
  cases w with
  | nil => cases hw
  | cons c0 wt =>
      unfold listIsIdent at hw
      rw [Bool.and_eq_true, List.all_eq_true] at hw
      intro c hc
      rcases List.mem_cons.mp hc with h | h
      · subst h
        unfold isIdentChar
        rw [hw.1]
        rfl
      · exact hw.2 c h

lemma asGroup_pinned (s a w t g rest : List Char)
    (hs : s = a ++ ' ' :: 'a' :: 's' :: ' ' :: w)
    (hw : listIsIdent w = true)
    (huniq : countOccBy isAsOccAt s = 1)
    (hnd : noDoubleWs s = true)
    (ht : t <:+ s)
    (h : parseAsGroup t = some (g, rest)) : g = w := by
  have hndt := noDoubleWs_suffix s t hnd ht
  obtain ⟨c1, x1, x2, c4, hteq, hocc, hgid, hmax⟩ :=
    parseAsGroup_normalized t g rest hndt h
  have hstar : (' ' :: 'a' :: 's' :: ' ' :: w) <:+ s := ⟨a, hs.symm⟩
  have hoccstar : isAsOccAt (' ' :: 'a' :: 's' :: ' ' :: w) = true := rfl
  have hts := countOccBy_unique isAsOccAt s t (' ' :: 'a' :: 's' :: ' ' :: w)
    huniq ht hstar hocc hoccstar
  rw [hts] at hteq
  injection hteq with e1 hteq
  injection hteq with e2 hteq
  injection hteq with e3 hteq
  injection hteq with e4 hteq
  -- hteq : w = g ++ rest
  cases rest with
  | nil => rw [hteq]; simp
  | cons c t' =>
      exfalso
      have hic : isIdentChar c = false := hmax c t' rfl
      have hcw : c ∈ w := by
        rw [hteq]
        exact List.mem_append_right g (by simp)
      rw [listIsIdent_mem w hw c hcw] at hic
      cases hic

/-! ### C8: soundness of the scanners -/
lemma scanNoPrev_sound (tryAt : List Char → Option (List Char)) :
    ∀ (s g : List Char), scanNoPrev tryAt s = some g →
      ∃ t, t <:+ s ∧ tryAt t = some g := by
  intro s
  induction s with
  | nil =>
      intro g h
      exact ⟨[], List.suffix_refl [], h⟩
  | cons c cs ih =>
      intro g h
      unfold scanNoPrev at h
      cases htry : tryAt (c :: cs) with
      | some g0 =>
          rw [htry] at h
          injection h with h
          exact ⟨c :: cs, List.suffix_refl _, by rw [htry, h]⟩
      | none =>
          rw [htry] at h
          dsimp only at h
          obtain ⟨t, ht, hg⟩ := ih g h
          exact ⟨t, ht.trans (List.suffix_cons c cs), hg⟩

lemma scanNoPrev_eq_none (tryAt : List Char → Option (List Char)) :
    ∀ (s : List Char), scanNoPrev tryAt s = Option.none →
      ∀ t, t <:+ s → tryAt t = Option.none := by
  intro s
  induction s with
  | nil =>
      intro h t ht
      rw [List.suffix_nil.mp ht]
      exact h
  | cons c cs ih =>
      intro h t ht
      unfold scanNoPrev at h
      cases htry : tryAt (c :: cs) with
      | some g0 => rw [htry] at h; cases h
      | none =>
          rw [htry] at h
          dsimp only at h
          rcases List.suffix_cons_iff.mp ht with h1 | h1
          · rw [h1]; exact htry
          · exact ih h t h1

lemma scanBound_sound (tryAt : List Char → Option (List Char)) :
    ∀ (s : List Char) (pw : Bool) (g : List Char), scanBound tryAt pw s = some g →
      ∃ t, t <:+ s ∧ tryAt t = some g := by
  intro s
  induction s with
  | nil =>
      intro pw g h
      unfold scanBound at h
      cases pw with
      | true => cases h
      | false => exact ⟨[], List.suffix_refl [], h⟩
  | cons c cs ih =>
      intro pw g h
      unfold scanBound at h
      cases htry : (if pw then Option.none else tryAt (c :: cs)) with
      | some g0 =>
          rw [htry] at h
          injection h with h
          cases pw with
          | true => cases htry
          | false =>
              refine ⟨c :: cs, List.suffix_refl _, ?_⟩
              rw [if_neg (by simp)] at htry
              rw [htry, h]
      | none =>
          rw [htry] at h
          dsimp only at h
          obtain ⟨t, ht, hg⟩ := ih (isWordChar c) g h
          exact ⟨t, ht.trans (List.suffix_cons c cs), hg⟩

/-! ### C8: soundness of the greedy `[class]+` matcher -/
lemma greedyGo_sound (k : List Char → Option (List Char)) :
    ∀ (consRev rest r : List Char), greedyGo k consRev rest = some r →
      ∃ t, t <:+ (consRev.reverse ++ rest) ∧ k t = some r := by
  intro consRev
  induction consRev with
  | nil => intro rest r h; cases h
  | cons c cr ih =>
      intro rest r h
      unfold greedyGo at h
      cases hk : k rest with
      | some r0 =>
          rw [hk] at h
          injection h with h
          exact ⟨rest, ⟨(c :: cr).reverse, rfl⟩, by rw [hk, h]⟩
      | none =>
          rw [hk] at h
          dsimp only at h
          obtain ⟨t, ht, hkt⟩ := ih (c :: rest) r h
          refine ⟨t, ?_, hkt⟩
          rw [show (c :: cr).reverse ++ rest = cr.reverse ++ (c :: rest) from by simp]
          exact ht

lemma greedyPlus_sound (p : Char → Bool) (s : List Char)
    (k : List Char → Option (List Char)) (r : List Char)
    (h : greedyPlus p s k = some r) : ∃ t, t <:+ s ∧ k t = some r := by
  unfold greedyPlus at h
  obtain ⟨t, ht, hk⟩ := greedyGo_sound k _ _ r h
  refine ⟨t, ?_, hk⟩
  rwa [List.reverse_reverse, List.takeWhile_append_dropWhile] at ht

/-! ### C8: soundness of the lazy CASE continuation -/
lemma caseTail_sound :
    ∀ (l : List Char) (pr : List Char × List Char), caseTail l = some pr →
      ∃ u, u <:+ l ∧ parseEndAsGroup u = some pr := by
  intro l
  induction l with
  | nil =>
      intro pr h
      exact ⟨[], List.suffix_refl [], h⟩
  | cons c cs ih =>
      intro pr h
      unfold caseTail at h
      cases htry : parseEndAsGroup (c :: cs) with
      | some pr0 =>
          rw [htry] at h
          injection h with h
          exact ⟨c :: cs, List.suffix_refl _, by rw [htry, h]⟩
      | none =>
          rw [htry] at h
          dsimp only at h
          obtain ⟨u, hu, hg⟩ := ih pr h
          exact ⟨u, hu.trans (List.suffix_cons c cs), hg⟩

lemma caseTail_isSome :
    ∀ (l u : List Char) (pr : List Char × List Char), u <:+ l →
      parseEndAsGroup u = some pr → ∃ pr2, caseTail l = some pr2 := by
  intro l
  induction l with
  | nil =>
      intro u pr hu h
      rw [List.suffix_nil.mp hu] at h
      exact ⟨pr, h⟩
  | cons c cs ih =>
      intro u pr hu h
      unfold caseTail
      cases htry : parseEndAsGroup (c :: cs) with
      | some pr0 => exact ⟨pr0, rfl⟩
      | none =>
          dsimp only
          rcases List.suffix_cons_iff.mp hu with h1 | h1
          · rw [h1] at h
            rw [h] at htry
            cases htry
          · exact ih u pr h1 h

lemma parseEndAsGroup_toAsGroup (u : List Char) (pr : List Char × List Char)
    (h : parseEndAsGroup u = some pr) :
    ∃ v, v <:+ u ∧ parseAsGroup v = some pr := by
  unfold parseEndAsGroup at h
  obtain ⟨s1, hp1, h⟩ := Option.bind_eq_some.mp h
  obtain ⟨s2, hp2, h⟩ := Option.bind_eq_some.mp h
  obtain ⟨w1, hu1, _, _⟩ := parseWs1_sound u s1 hp1
  obtain ⟨w2, hs1, _⟩ := parseCI_sound ['e', 'n', 'd'] s1 s2 hp2
  refine ⟨s2, ?_, h⟩
  refine ⟨w1 ++ w2, ?_⟩
  rw [hu1, hs1, List.append_assoc]

/-! ### C8: each pattern success reaches the shared `\s+as\s+(ident)` tail -/
lemma aliasPatternAt_sound (t g : List Char) (h : aliasPatternAt t = some g) :
    ∃ rest, parseAsGroup t = some (g, rest) := by
  unfold aliasPatternAt at h
  obtain ⟨pr, hpr, h⟩ := Option.bind_eq_some.mp h
  obtain ⟨g0, rest⟩ := pr
  dsimp only at h
  by_cases hall : rest.all pyIsSpace = true
  · rw [if_pos hall] at h
    injection h with h
    rw [← h]
    exact ⟨rest, hpr⟩
  · rw [if_neg hall] at h
    cases h

lemma caseAt_sound (t g : List Char) (h : caseAt t = some g) :
    ∃ v rest, v <:+ t ∧ parseAsGroup v = some (g, rest) := by
  unfold caseAt at h
  obtain ⟨s1, hp1, h⟩ := Option.bind_eq_some.mp h
  obtain ⟨w, ht1, _⟩ := parseCI_sound ['c', 'a', 's', 'e'] t s1 hp1
  cases s1 with
  | nil => cases h
  | cons c cs =>
      dsimp only at h
      by_cases hc : pyIsSpace c = true
      · rw [if_pos hc] at h
        obtain ⟨pr, hpr, hg⟩ := Option.map_eq_some'.mp h
        obtain ⟨g0, rest⟩ := pr
        dsimp only at hg
        obtain ⟨u, hu, hend⟩ := caseTail_sound cs (g0, rest) hpr
        obtain ⟨v, hv, hpa⟩ := parseEndAsGroup_toAsGroup u (g0, rest) hend
        refine ⟨v, rest, ?_, ?_⟩
        · have h1 : v <:+ cs := hv.trans hu
          have h2 : cs <:+ t := by
            rw [ht1]
            exact (List.suffix_cons c cs).trans ⟨w, rfl⟩
          exact h1.trans h2
        · rw [hpa, hg]
      · rw [if_neg hc] at h
        cases h

lemma funcAt_sound (t g : List Char) (h : funcAt t = some g) :
    ∃ v rest, v <:+ t ∧ parseAsGroup v = some (g, rest) := by
  unfold funcAt at h
  obtain ⟨pr0, hp0, h⟩ := Option.bind_eq_some.mp h
  obtain ⟨g0, s1⟩ := pr0
  dsimp only at h
  split at h
  next s3 heq =>
    split at h
    next s5 heq2 =>
      obtain ⟨pr, hpr, hg⟩ := Option.map_eq_some'.mp h
      obtain ⟨gg, rest⟩ := pr
      dsimp only at hg
      refine ⟨s5, rest, ?_, by rw [hpr, hg]⟩
      have h5 : s5 <:+ s3 := by
        have hd := List.dropWhile_suffix (l := s3) (fun c => c != ')')
        rw [heq2] at hd
        exact (List.suffix_cons ')' s5).trans hd
      have h3 : s3 <:+ s1 := by
        have hd := List.dropWhile_suffix (l := s1) pyIsSpace
        rw [heq] at hd
        exact (List.suffix_cons '(' s3).trans hd
      have h1 : s1 <:+ t := by
        obtain ⟨hteq, _, _⟩ := parseIdent_sound t g0 s1 hp0
        exact ⟨g0, hteq.symm⟩
      exact (h5.trans h3).trans h1
    next hne => cases h
  next hne => cases h

lemma mathAt_sound (t g : List Char) (h : mathAt t = some g) :
    ∃ v rest, v <:+ t ∧ parseAsGroup v = some (g, rest) := by
  unfold mathAt at h
  obtain ⟨s1, hs1, h1⟩ := greedyPlus_sound _ t _ g h
  cases s1 with
  | nil => cases h1
  | cons c cs =>
      dsimp only at h1
      by_cases hop : (c == '+' || c == '-' || c == '*' || c == '/') = true
      · rw [if_pos hop] at h1
        obtain ⟨s2, hs2, h2⟩ := greedyPlus_sound _ cs _ g h1
        obtain ⟨pr, hpr, hg⟩ := Option.map_eq_some'.mp h2
        obtain ⟨gg, rest⟩ := pr
        dsimp only at hg
        refine ⟨s2, rest, ?_, by rw [hpr, hg]⟩
        exact (hs2.trans (List.suffix_cons c cs)).trans hs1
      · rw [if_neg hop] at h1
        cases h1

lemma concatAt_sound (t g : List Char) (h : concatAt t = some g) :
    ∃ v rest, v <:+ t ∧ parseAsGroup v = some (g, rest) := by
  unfold concatAt at h
  obtain ⟨s1, hs1, h1⟩ := greedyPlus_sound _ t _ g h
  split at h1
  next cs =>
    obtain ⟨s2, hs2, h2⟩ := greedyPlus_sound _ cs _ g h1
    obtain ⟨pr, hpr, hg⟩ := Option.map_eq_some'.mp h2
    obtain ⟨gg, rest⟩ := pr
    dsimp only at hg
    refine ⟨s2, rest, ?_, by rw [hpr, hg]⟩
    have hcc : s2 <:+ '|' :: '|' :: cs :=
      (hs2.trans (List.suffix_cons '|' cs)).trans (List.suffix_cons '|' ('|' :: cs))
    exact hcc.trans hs1
  next hne => cases h1

/-! ### C8: the ` end as ` occurrence, on normalized text -/
lemma map_eq_triple {f : Char → Char} {w : List Char} {a b c : Char}
    (h : w.map f = [a, b, c]) :
    ∃ x y z, w = [x, y, z] ∧ f x = a ∧ f y = b ∧ f z = c := by
  cases w with
  | nil => simp at h
  | cons x w1 =>
      cases w1 with
      | nil => simp at h
      | cons y w2 =>
          cases w2 with
          | nil => simp at h
          | cons z w3 =>
              cases w3 with
              | nil =>
                  simp only [List.map_cons, List.map_nil, List.cons.injEq, and_true] at h
                  exact ⟨x, y, z, rfl, h.1, h.2.1, h.2.2⟩
              | cons u w4 => simp at h

lemma countAsOcc_eq : ∀ (s : List Char), countAsOcc s = countOccBy isAsOccAt s := by
  intro s
  induction s with
  | nil => rfl
  | cons c cs ih =>
      unfold countAsOcc countOccBy
      rw [ih]

lemma countEndAsOcc_eq :
    ∀ (s : List Char), countEndAsOcc s = countOccBy isEndAsOccAt s := by
  intro s
  induction s with
  | nil => rfl
  | cons c cs ih =>
      unfold countEndAsOcc countOccBy
      rw [ih]

lemma parseEndAsGroup_normalized (t g rest : List Char)
    (hnd : noDoubleWs t = true) (h : parseEndAsGroup t = some (g, rest)) :
    ∃ c1 e1 e2 e3 c5 x1 x2 c8,
      t = c1 :: e1 :: e2 :: e3 :: c5 :: x1 :: x2 :: c8 :: (g ++ rest)
      ∧ isEndAsOccAt t = true ∧ listIsIdent g = true
      ∧ (∀ c t2, rest = c :: t2 → isIdentChar c = false) := by
  unfold parseEndAsGroup at h
  obtain ⟨s1, hp1, h⟩ := Option.bind_eq_some.mp h
  obtain ⟨s2, hp2, h⟩ := Option.bind_eq_some.mp h
  obtain ⟨w1, ht1, hw1ne, hw1ws⟩ := parseWs1_sound t s1 hp1
  obtain ⟨wend, hs1, hmap⟩ := parseCI_sound ['e', 'n', 'd'] s1 s2 hp2
  have hmap3 : wend.map charLower = ['e', 'n', 'd'] := by
    rw [hmap]; decide
  obtain ⟨e1, e2, e3, hwend, he1, he2, he3⟩ := map_eq_triple hmap3
  obtain ⟨c1, hw1, hc1⟩ := ws_run_singleton w1 s1 (by rw [← ht1]; exact hnd) hw1ne hw1ws
  have hteq0 : t = c1 :: e1 :: e2 :: e3 :: s2 := by
    rw [ht1, hw1, hs1, hwend]
    rfl
  have hs2suf : s2 <:+ t := by
    rw [hteq0]
    exact ⟨[c1, e1, e2, e3], rfl⟩
  have hnds2 : noDoubleWs s2 = true := noDoubleWs_suffix t s2 hnd hs2suf
  obtain ⟨c5, x1, x2, c8, hs2eq, hocc, hgid, hmax⟩ :=
    parseAsGroup_normalized s2 g rest hnds2 h
  have hteq : t = c1 :: e1 :: e2 :: e3 :: c5 :: x1 :: x2 :: c8 :: (g ++ rest) := by
    rw [hteq0, hs2eq]
  refine ⟨c1, e1, e2, e3, c5, x1, x2, c8, hteq, ?_, hgid, hmax⟩
  rw [hs2eq] at hocc
  unfold isAsOccAt at hocc
  dsimp only at hocc
  simp only [Bool.and_eq_true, beq_iff_eq] at hocc
  rw [hteq]
  unfold isEndAsOccAt
  dsimp only
  rw [hc1, he1, he2, he3, hocc.1.1.1, hocc.1.1.2, hocc.1.2, hocc.2]
  decide

lemma endAsGroup_pinned (s a w u g rest : List Char)
    (hs : s = a ++ ' ' :: 'e' :: 'n' :: 'd' :: ' ' :: 'a' :: 's' :: ' ' :: w)
    (hw : listIsIdent w = true)
    (huniq : countOccBy isEndAsOccAt s = 1)
    (hnd : noDoubleWs s = true)
    (hu : u <:+ s)
    (h : parseEndAsGroup u = some (g, rest)) : g = w := by
  have hndu := noDoubleWs_suffix s u hnd hu
  obtain ⟨c1, e1, e2, e3, c5, x1, x2, c8, hueq, hocc, hgid, hmax⟩ :=
    parseEndAsGroup_normalized u g rest hndu h
  have hstar : (' ' :: 'e' :: 'n' :: 'd' :: ' ' :: 'a' :: 's' :: ' ' :: w) <:+ s :=
    ⟨a, hs.symm⟩
  have hoccstar :
      isEndAsOccAt (' ' :: 'e' :: 'n' :: 'd' :: ' ' :: 'a' :: 's' :: ' ' :: w) = true := rfl
  have hus := countOccBy_unique isEndAsOccAt s u
    (' ' :: 'e' :: 'n' :: 'd' :: ' ' :: 'a' :: 's' :: ' ' :: w) huniq hu hstar hocc hoccstar
  rw [hus] at hueq
  injection hueq with e1 hueq
  injection hueq with e2 hueq
  injection hueq with e3 hueq
  injection hueq with e4 hueq
  injection hueq with e5 hueq
  injection hueq with e6 hueq
  injection hueq with e7 hueq
  injection hueq with e8 hueq
  cases rest with
  | nil => rw [hueq]; simp
  | cons c t2 =>
      exfalso
      have hic : isIdentChar c = false := hmax c t2 rfl
      have hcw : c ∈ w := by
        rw [hueq]
        exact List.mem_append_right g (by simp)
      rw [listIsIdent_mem w hw c hcw] at hic
      cases hic

/-! ### C8: completeness at the designated occurrence -/
lemma takeWhile_all (p : Char → Bool) :
    ∀ (l : List Char), (∀ c ∈ l, p c = true) →
      l.takeWhile p = l ∧ l.dropWhile p = [] := by
  intro l
  induction l with
  | nil => intro _; exact ⟨rfl, rfl⟩
  | cons c cs ih =>
      intro h
      have hc := h c (by simp)
      have ihh := ih (fun x hx => h x (List.mem_cons_of_mem _ hx))
      rw [List.takeWhile_cons, List.dropWhile_cons, hc]
      simp [ihh.1, ihh.2]

lemma parseAsGroup_complete (w : List Char) (hw : listIsIdent w = true) :
    parseAsGroup (' ' :: 'a' :: 's' :: ' ' :: w) = some (w, []) := by
  obtain ⟨c0, wt, rfl⟩ : ∃ c0 wt, w = c0 :: wt := by
    cases w with
    | nil => cases hw
    | cons c0 wt => exact ⟨c0, wt, rfl⟩
  unfold listIsIdent at hw
  rw [Bool.and_eq_true, List.all_eq_true] at hw
  have hc0 : pyIsSpace c0 = false := identStart_not_ws c0 hw.1
  show parseIdent ((c0 :: wt).dropWhile pyIsSpace) = some (c0 :: wt, [])
  rw [List.dropWhile_cons, hc0]
  simp only [Bool.false_eq_true, if_false]
  unfold parseIdent
  dsimp only
  rw [if_pos hw.1, (takeWhile_all isIdentChar wt hw.2).1,
    (takeWhile_all isIdentChar wt hw.2).2]

lemma aliasPatternAt_complete (w : List Char) (hw : listIsIdent w = true) :
    aliasPatternAt (' ' :: 'a' :: 's' :: ' ' :: w) = some w := by
  unfold aliasPatternAt
  rw [parseAsGroup_complete w hw]
  rfl

lemma parseEndAsGroup_complete (w : List Char) (hw : listIsIdent w = true) :
    parseEndAsGroup (' ' :: 'e' :: 'n' :: 'd' :: ' ' :: 'a' :: 's' :: ' ' :: w)
      = some (w, []) := by
  show parseAsGroup (' ' :: 'a' :: 's' :: ' ' :: w) = some (w, [])
  exact parseAsGroup_complete w hw

lemma scanBound_head (tryAt : List Char → Option (List Char)) (c : Char)
    (cs g : List Char) (h : tryAt (c :: cs) = some g) :
    scanBound tryAt false (c :: cs) = some g := by
  unfold scanBound
  rw [show (if false then Option.none else tryAt (c :: cs)) = tryAt (c :: cs) from rfl, h]

/-! ### C8: whitespace normalization produces single-space text -/
lemma noDoubleWs_cons_of (c : Char) (l : List Char) (hc : pyIsSpace c = false)
    (hl : noDoubleWs l = true) : noDoubleWs (c :: l) = true := by
  cases l with
  | nil => rfl
  | cons d l2 =>
      unfold noDoubleWs
      rw [hc]
      simp [hl]

lemma noDoubleWs_prepend :
    ∀ (w l : List Char), (∀ c ∈ w, pyIsSpace c = false) → noDoubleWs l = true →
      noDoubleWs (w ++ l) = true := by
  intro w
  induction w with
  | nil => intro l _ hl; exact hl
  | cons c cs ih =>
      intro l hw hl
      rw [List.cons_append]
      refine noDoubleWs_cons_of c (cs ++ l) (hw c (by simp)) ?_
      exact ih l (fun x hx => hw x (List.mem_cons_of_mem _ hx)) hl

lemma joinWords_good :
    ∀ (ws : List (List Char)),
      (∀ w ∈ ws, w ≠ [] ∧ ∀ c ∈ w, pyIsSpace c = false) →
      noDoubleWs (joinWords ws) = true ∧
        (∀ c l2, joinWords ws = c :: l2 → pyIsSpace c = false) := by
  intro ws
  induction ws with
  | nil =>
      intro _
      exact ⟨rfl, fun c l2 hcl => by cases hcl⟩
  | cons w ws2 ih =>
      intro h
      have hw := h w (by simp)
      cases ws2 with
      | nil =>
          constructor
          · have hj : joinWords [w] = w ++ [] := by
              unfold joinWords
              rw [List.append_nil]
            rw [hj]
            exact noDoubleWs_prepend w [] hw.2 rfl
          · intro c l2 hcl
            refine hw.2 c ?_
            rw [show joinWords [w] = w from rfl] at hcl
            rw [hcl]
            simp
      | cons w2 ws3 =>
          obtain ⟨ih1, ih2⟩ := ih (fun v hv => h v (List.mem_cons_of_mem _ hv))
          have hj : joinWords (w :: w2 :: ws3) = w ++ ' ' :: joinWords (w2 :: ws3) := rfl
          constructor
          · rw [hj]
            refine noDoubleWs_prepend w _ hw.2 ?_
            cases hjo : joinWords (w2 :: ws3) with
            | nil => rfl
            | cons c l2 =>
                have hc := ih2 c l2 hjo
                unfold noDoubleWs
                rw [hc]
                rw [hjo] at ih1
                simp [ih1]
          · intro c l2 hcl
            rw [hj] at hcl
            cases hweq : w with
            | nil => exact absurd hweq hw.1
            | cons a w3 =>
                rw [hweq] at hcl
                rw [List.cons_append] at hcl
                injection hcl with h1 _
                rw [← h1]
                refine hw.2 a ?_
                rw [hweq]
                simp

lemma splitWsAux_good :
    ∀ (l acc : List Char), (∀ c ∈ acc, pyIsSpace c = false) →
      ∀ w ∈ splitWsAux l acc, w ≠ [] ∧ ∀ c ∈ w, pyIsSpace c = false := by
  intro l
  induction l with
  | nil =>
      intro acc hacc w hw
      unfold splitWsAux at hw
      by_cases he : acc.isEmpty = true
      · rw [if_pos he] at hw
        cases hw
      · rw [if_neg he] at hw
        rw [List.mem_singleton.mp hw]
        constructor
        · cases acc with
          | nil => cases he rfl
          | cons a as => simp
        · intro c hc
          exact hacc c (List.mem_reverse.mp hc)
  | cons c cs ih =>
      intro acc hacc w hw
      unfold splitWsAux at hw
      by_cases hc : pyIsSpace c = true
      · rw [if_pos hc] at hw
        by_cases he : acc.isEmpty = true
        · rw [if_pos he] at hw
          exact ih [] (by simp) w hw
        · rw [if_neg he] at hw
          rcases List.mem_cons.mp hw with heq | hmem
          · rw [heq]
            constructor
            · cases acc with
              | nil => cases he rfl
              | cons a as => simp
            · intro x hx
              exact hacc x (List.mem_reverse.mp hx)
          · exact ih [] (by simp) w hmem
      · rw [if_neg hc] at hw
        refine ih (c :: acc) ?_ w hw
        intro x hx
        rcases List.mem_cons.mp hx with heq | hx2
        · rw [heq]
          exact Bool.eq_false_iff.mpr hc
        · exact hacc x hx2

lemma normalizeWsL_noDoubleWs (l : List Char) :
    noDoubleWs (normalizeWsL l) = true :=
  (joinWords_good (splitWsAux l []) (splitWsAux_good l [] (by simp))).1

/-! ### C8: assembly -/
lemma extract_alias_unique_as (expression : String) (a w : List Char)
    (hs : normalizeWsL expression.data = a ++ ' ' :: 'a' :: 's' :: ' ' :: w)
    (hw : listIsIdent w = true)
    (huniq : countAsOcc (normalizeWsL expression.data) = 1) :
    extract_alias_from_expression expression = some (String.mk w) := by
  have hnd : noDoubleWs (normalizeWsL expression.data) = true :=
    normalizeWsL_noDoubleWs expression.data
  have huniq2 : countOccBy isAsOccAt (normalizeWsL expression.data) = 1 := by
    rw [← countAsOcc_eq]
    exact huniq
  unfold extract_alias_from_expression
  dsimp only
  cases hcase : scanBound caseAt false (normalizeWsL expression.data) with
  | some g =>
      obtain ⟨t, ht, hat⟩ :=
        scanBound_sound caseAt (normalizeWsL expression.data) false g hcase
      obtain ⟨v, rest, hv, hpa⟩ := caseAt_sound t g hat
      rw [asGroup_pinned (normalizeWsL expression.data) a w v g rest hs hw huniq2 hnd
        (hv.trans ht) hpa]
  | none =>
      cases hfunc : scanBound funcAt false (normalizeWsL expression.data) with
      | some g =>
          obtain ⟨t, ht, hat⟩ :=
            scanBound_sound funcAt (normalizeWsL expression.data) false g hfunc
          obtain ⟨v, rest, hv, hpa⟩ := funcAt_sound t g hat
          rw [asGroup_pinned (normalizeWsL expression.data) a w v g rest hs hw huniq2 hnd
            (hv.trans ht) hpa]
      | none =>
          cases hmath : scanNoPrev mathAt (normalizeWsL expression.data) with
          | some g =>
              obtain ⟨t, ht, hat⟩ :=
                scanNoPrev_sound mathAt (normalizeWsL expression.data) g hmath
              obtain ⟨v, rest, hv, hpa⟩ := mathAt_sound t g hat
              rw [asGroup_pinned (normalizeWsL expression.data) a w v g rest hs hw huniq2
                hnd (hv.trans ht) hpa]
          | none =>
              cases hcat : scanNoPrev concatAt (normalizeWsL expression.data) with
              | some g =>
                  obtain ⟨t, ht, hat⟩ :=
                    scanNoPrev_sound concatAt (normalizeWsL expression.data) g hcat
                  obtain ⟨v, rest, hv, hpa⟩ := concatAt_sound t g hat
                  rw [asGroup_pinned (normalizeWsL expression.data) a w v g rest hs hw
                    huniq2 hnd (hv.trans ht) hpa]
              | none =>
                  cases hali : scanNoPrev aliasPatternAt (normalizeWsL expression.data) with
                  | some g =>
                      obtain ⟨t, ht, hat⟩ :=
                        scanNoPrev_sound aliasPatternAt (normalizeWsL expression.data) g hali
                      obtain ⟨rest, hpa⟩ := aliasPatternAt_sound t g hat
                      rw [asGroup_pinned (normalizeWsL expression.data) a w t g rest hs hw
                        huniq2 hnd ht hpa]
                  | none =>
                      exfalso
                      have hnone := scanNoPrev_eq_none aliasPatternAt
                        (normalizeWsL expression.data) hali
                        (' ' :: 'a' :: 's' :: ' ' :: w) ⟨a, hs.symm⟩
                      rw [aliasPatternAt_complete w hw] at hnone
                      cases hnone

lemma extract_alias_case_end (expression : String) (b w : List Char)
    (hs : normalizeWsL expression.data
      = 'c' :: 'a' :: 's' :: 'e' :: ' '
        :: (b ++ ' ' :: 'e' :: 'n' :: 'd' :: ' ' :: 'a' :: 's' :: ' ' :: w))
    (hw : listIsIdent w = true)
    (huniq : countEndAsOcc (normalizeWsL expression.data) = 1) :
    extract_alias_from_expression expression = some (String.mk w) := by
  have hnd : noDoubleWs (normalizeWsL expression.data) = true :=
    normalizeWsL_noDoubleWs expression.data
  have huniq2 : countOccBy isEndAsOccAt (normalizeWsL expression.data) = 1 := by
    rw [← countEndAsOcc_eq]
    exact huniq
  have hstarsuf : (' ' :: 'e' :: 'n' :: 'd' :: ' ' :: 'a' :: 's' :: ' ' :: w)
      <:+ (b ++ ' ' :: 'e' :: 'n' :: 'd' :: ' ' :: 'a' :: 's' :: ' ' :: w) := ⟨b, rfl⟩
  obtain ⟨pr, hct⟩ :=
    caseTail_isSome _ _ (w, []) hstarsuf (parseEndAsGroup_complete w hw)
  obtain ⟨g, rest⟩ := pr
  obtain ⟨u, hu, hend⟩ := caseTail_sound _ (g, rest) hct
  have hbodysuf : (b ++ ' ' :: 'e' :: 'n' :: 'd' :: ' ' :: 'a' :: 's' :: ' ' :: w)
      <:+ normalizeWsL expression.data := by
    rw [hs]
    exact ⟨['c', 'a', 's', 'e', ' '], rfl⟩
  have hg : g = w := endAsGroup_pinned (normalizeWsL expression.data)
    ('c' :: 'a' :: 's' :: 'e' :: ' ' :: b) w u g rest
    (by rw [hs]; simp) hw huniq2 hnd (hu.trans hbodysuf) hend
  have hcA : caseAt ('c' :: 'a' :: 's' :: 'e' :: ' '
      :: (b ++ ' ' :: 'e' :: 'n' :: 'd' :: ' ' :: 'a' :: 's' :: ' ' :: w)) = some w := by
    show (caseTail (b ++ ' ' :: 'e' :: 'n' :: 'd' :: ' ' :: 'a' :: 's' :: ' ' :: w)).map
      (fun x => x.1) = some w
    rw [hct, hg]
    rfl
  have hscan : scanBound caseAt false (normalizeWsL expression.data) = some w := by
    rw [hs]
    exact scanBound_head caseAt 'c' _ w hcA
  unfold extract_alias_from_expression
  dsimp only
  rw [hscan]

/-- **C8.** Amended alias round-trip for
`SQLExpressionColumnValidator._extract_alias_from_expression`: on the
whitespace-normalized entry, (1) if the entry has the form `<expr> as <alias>`
with `<alias>` matching `^[a-zA-Z_][a-zA-Z0-9_]*$` and the entry contains
exactly one case-insensitive whitespace-delimited ` as ` occurrence, extraction
returns exactly `<alias>`, character for character; and (2) if the entry has the
form `case <body> end as <alias>` and contains exactly one case-insensitive
` end as ` occurrence, extraction returns exactly `<alias>` even when `<body>`
contains the substring ` as `, because the CASE pattern has the highest
priority. (The claim's unqualified first part fails when `<expr>` itself
contains another ` as ` occurrence; see the counterexample.) -/
theorem c8_alias_extraction_roundtrip (expression : String) (w : List Char)
    (hw : listIsIdent w = true) :
    ((∃ a, normalizeWsL expression.data = a ++ ' ' :: 'a' :: 's' :: ' ' :: w) →
        countAsOcc (normalizeWsL expression.data) = 1 →
        extract_alias_from_expression expression = some (String.mk w)) ∧
    ((∃ b, normalizeWsL expression.data
          = 'c' :: 'a' :: 's' :: 'e' :: ' '
            :: (b ++ ' ' :: 'e' :: 'n' :: 'd' :: ' ' :: 'a' :: 's' :: ' ' :: w)) →
        countEndAsOcc (normalizeWsL expression.data) = 1 →
        extract_alias_from_expression expression = some (String.mk w)) := by
  constructor
  · rintro ⟨a, hs⟩ huniq
    exact extract_alias_unique_as expression a w hs hw huniq
  · rintro ⟨b, hs⟩ huniq
    exact extract_alias_case_end expression b w hs hw huniq

/-- **C8 counterexample.** An entry of the form `<expr> as <alias>` whose
`<expr>` itself contains ` as `: `"f(1) as a as b"` has the claimed form with
alias `b`, but extraction returns `a` (the function-call pattern captures the
first alias), so the unqualified claim is false. -/
theorem c8_counterexample :
    extract_alias_from_expression "f(1) as a as b" = some "a"
      ∧ some "a" ≠ some "b" := by
  constructor
  · decide
  · decide

/-- **C8 witness.** Concrete instances of both amended parts. -/
theorem c8_alias_extraction_roundtrip_witness :
    extract_alias_from_expression "col1 as c1" = some (String.mk ['c', '1'])
      ∧ extract_alias_from_expression "case x as y end as z"
          = some (String.mk ['z']) :=
  ⟨(c8_alias_extraction_roundtrip "col1 as c1" ['c', '1'] (by decide)).1
      ⟨['c', 'o', 'l', '1'], by decide⟩ (by decide),
   (c8_alias_extraction_roundtrip "case x as y end as z" ['z'] (by decide)).2
      ⟨['x', ' ', 'a', 's', ' ', 'y'], by decide⟩ (by decide)⟩

end GdxSpec
